import Mathlib

/-!
# KernelElevator: a shallow embedding of `src/elevator.c`

The module keeps one global `Elevator`, one global `Passengers`
record (two linked lists and a counter) and two `int[FLOORS]` arrays.
Here the globals are gathered in one `State` value and every C function
becomes a function on `State`.

Modelling conventions.

* C `int` is `Int`; the counters move by steps of at most 8 and are taken
  not to reach the 32-bit limits.
* A kernel linked list is the `List` of its entries from head to tail;
  `list_add_tail` appends and `list_move_tail` removes the visited node
  and appends it to the target list.
* The two system calls that take the lock, `issue_request` and
  `stop_elevator`, run in process context, where a signal can interrupt the
  wait for the lock: the value returned by `mutex_lock_interruptible` is
  their parameter `lock`, 0 when the lock is acquired and non-zero
  otherwise.  `unloadPassengers` and `loadPassengers` are called by the
  kernel thread only, which receives no signal, and there the lock is taken
  as acquired.  The mutex itself is not part of the state.
* Whether `kmalloc` returns a record is the parameter `allocated` of
  `issue_request`; the code writes through the pointer unchecked, so with no
  record the call has no defined result (`none`).
* `int a[FLOORS]` is a function `Fin FLOORS → Int`.  An access `a[i]` with
  `i` outside `0 .. FLOORS-1` has no defined behaviour in C; a function
  that can make such an access returns `Option` and yields `none` there.
* `ssleep` only passes time and is dropped.
-/

namespace KernelElevator

/-! ## Constants (`#define`s) -/

abbrev FLOORS : Nat := 10

def MAX_PASSENGERS : Int := 10
def MAX_WEIGHT : Int := 30

def ADULT : Int := 1
def CHILD : Int := 1
def ROOM_SERVICE : Int := 2
def BELLHOP : Int := 2

def ADULT_WEIGHT : Int := 2
def CHILD_WEIGHT : Int := 1
def ROOM_SERVICE_WEIGHT : Int := 4
def BELLHOP_WEIGHT : Int := 8

/-! ## Data model (the `typedef struct`s and the globals) -/

/-- The `struct elevator_status`: state is 0 offline, 1 idle, 2 loading,
3 up, 4 down; `deactiving` and `started` are ints used as flags. -/
structure Elevator where
  state : Int
  current_floor : Int
  next_floor : Int
  passengers : Int
  weight : Int
  deactiving : Int
  started : Int
  deriving DecidableEq

/-- The `struct passenger_data` without its list link. -/
structure Passenger where
  type : Int
  start : Int
  destination : Int
  deriving DecidableEq

/-- The `struct passenger_lists`. -/
structure Passengers where
  waiting : List Passenger
  onElevator : List Passenger
  serviced : Int
  deriving DecidableEq

/-- The globals of the module: `elevator`, `passengers`,
`serviced_on_floor` and `waiting_on_floor`. -/
structure State where
  elevator : Elevator
  passengers : Passengers
  serviced_on_floor : Fin FLOORS → Int
  waiting_on_floor : Fin FLOORS → Int

/-- The array slot addressed by the C index `i`, when `i` is inside the
array. -/
def floorIndex (i : Int) : Option (Fin FLOORS) :=
  if h : 0 ≤ i ∧ i < (FLOORS : Int) then
    some ⟨i.toNat, by have h2 := h.2; simp only [FLOORS] at h2; omega⟩
  else none

/-! ## System calls -/

/-- The function `start_elevator`, with its return value. -/
def start_elevator (s : State) : State × Int :=
  if s.elevator.started ≠ 0 then (s, 1)
  else ({ s with elevator := { s.elevator with started := 1, deactiving := 0 } }, 0)

/-- The function `issue_request`, with its return value. `lock` is the
value returned by `mutex_lock_interruptible` and `allocated` tells whether
`kmalloc` returned a record; the writes through a null `p` have no defined
result. After the three range checks the index `start_floor - 1` lies
inside `waiting_on_floor`. -/
def issue_request (lock : Int) (allocated : Bool) (s : State)
    (passenger_type start_floor destination_floor : Int) : Option (State × Int) :=
  if s.elevator.started = 0 then some (s, 1)
  else if passenger_type < 1 ∨ passenger_type > 4 then some (s, 1)
  else if h : start_floor < 1 ∨ start_floor > (FLOORS : Int) then some (s, 1)
  else if destination_floor < 1 ∨ destination_floor > (FLOORS : Int) then some (s, 1)
  else if lock = 0 then
    if s.elevator.deactiving = 0 then
      if allocated = true then
        let p : Passenger := ⟨passenger_type, start_floor, destination_floor⟩
        let i : Fin FLOORS := ⟨(p.start - 1).toNat, by
          simp only [FLOORS, not_or, not_lt, not_le, gt_iff_lt] at h ⊢; omega⟩
        some ({ s with
          passengers := { s.passengers with waiting := s.passengers.waiting ++ [p] }
          waiting_on_floor :=
            Function.update s.waiting_on_floor i (s.waiting_on_floor i + 1) }, 0)
      else none
    else some (s, 0)
  else some (s, 0)

/-- The function `stop_elevator`, with its return value. `lock` is the
value returned by `mutex_lock_interruptible`: the two flags are written
before the lock is asked for; with the lock every waiting node is moved to
a private list and freed, without it the waiting queue is left as it is;
every waiting counter is zeroed and 0 is returned in both cases. -/
def stop_elevator (lock : Int) (s : State) : State × Int :=
  if s.elevator.started = 0 then (s, 1)
  else if s.elevator.deactiving ≠ 0 then (s, 1)
  else
    ({ s with
        elevator := { s.elevator with deactiving := 1, started := 0 }
        passengers := { s.passengers with
          waiting := if lock = 0 then [] else s.passengers.waiting }
        waiting_on_floor := fun _ => 0 }, 0)

/-! ## Capacity policy -/

/-- The function `getPassengerUnit`. -/
def getPassengerUnit (p : Passenger) : Int :=
  if p.type = 1 then ADULT
  else if p.type = 2 then CHILD
  else if p.type = 3 then ROOM_SERVICE
  else if p.type = 4 then BELLHOP
  else 0

/-- The function `getPassengerWeight`. -/
def getPassengerWeight (p : Passenger) : Int :=
  if p.type = 1 then ADULT_WEIGHT
  else if p.type = 2 then CHILD_WEIGHT
  else if p.type = 3 then ROOM_SERVICE_WEIGHT
  else if p.type = 4 then BELLHOP_WEIGHT
  else 0

/-! ## Unloading and loading -/

/-- The `list_for_each_safe` loop of `unloadPassengers`. `kept` holds the
nodes already visited and left on the elevator, the second argument the
nodes still to visit, so that the aboard list of the state is `kept`
followed by the nodes to visit; the last argument is the local
`unloaded`. -/
def unloadLoop : List Passenger → List Passenger → State → Int → Option (State × Int)
  | _, [], s, unloaded => some (s, unloaded)
  | kept, p :: rest, s, unloaded =>
    if p.destination = s.elevator.current_floor then
      match floorIndex (p.start - 1) with
      | none => none
      | some i =>
        unloadLoop kept rest
          { s with
            elevator := { s.elevator with
              passengers := s.elevator.passengers - getPassengerUnit p
              weight := s.elevator.weight - getPassengerWeight p }
            passengers := { s.passengers with
              onElevator := kept ++ rest
              serviced := s.passengers.serviced + 1 }
            serviced_on_floor :=
              Function.update s.serviced_on_floor i (s.serviced_on_floor i + 1) }
          1
    else unloadLoop (kept ++ [p]) rest s unloaded

/-- The function `unloadPassengers`, with its return value. -/
def unloadPassengers (s : State) : Option (State × Int) :=
  unloadLoop [] s.passengers.onElevator s 0

/-- The `list_for_each_safe` loop of `loadPassengers`, arguments as in
`unloadLoop` with the waiting list in place of the aboard list. -/
def loadLoop : List Passenger → List Passenger → State → Int → Option (State × Int)
  | _, [], s, loaded => some (s, loaded)
  | kept, p :: rest, s, loaded =>
    if p.start = s.elevator.current_floor then
      let units := getPassengerUnit p
      let weight := getPassengerWeight p
      if weight + s.elevator.weight ≤ MAX_WEIGHT ∧
          units + s.elevator.passengers ≤ MAX_PASSENGERS then
        match floorIndex (p.start - 1) with
        | none => none
        | some i =>
          loadLoop kept rest
            { s with
              elevator := { s.elevator with
                passengers := s.elevator.passengers + units
                weight := s.elevator.weight + weight }
              passengers := { s.passengers with
                waiting := kept ++ rest
                onElevator := s.passengers.onElevator ++ [p] }
              waiting_on_floor :=
                Function.update s.waiting_on_floor i (s.waiting_on_floor i - 1) }
            1
      else loadLoop (kept ++ [p]) rest s loaded
    else loadLoop (kept ++ [p]) rest s loaded

/-- The function `loadPassengers`, with its return value. -/
def loadPassengers (s : State) : Option (State × Int) :=
  loadLoop [] s.passengers.waiting s 0

/-! ## Motion -/

/-- The function `changeElevatorState`. -/
def changeElevatorState (s : State) : State :=
  if s.elevator.next_floor > s.elevator.current_floor then
    { s with elevator := { s.elevator with state := 3 } }
  else
    { s with elevator := { s.elevator with state := 4 } }

/-- The function `moveElevator`: two `if` statements in sequence. -/
def moveElevator (s : State) : State :=
  let s1 : State :=
    if s.elevator.state = 3 then
      let c := s.elevator.current_floor + 1
      { s with elevator := { s.elevator with
          current_floor := c
          next_floor := if c = (FLOORS : Int) then c - 1 else c + 1 } }
    else s
  if s1.elevator.state = 4 then
    let c := s1.elevator.current_floor - 1
    { s1 with elevator := { s1.elevator with
        current_floor := c
        next_floor := if c = 1 then c + 1 else c - 1 } }
  else s1

/-! ## The scheduler loop -/

/-- One iteration of the `while` loop of `thread_run` (a scheduler
tick). -/
def thread_run_body (s : State) : Option State :=
  if s.passengers.waiting ≠ [] ∨ s.passengers.onElevator ≠ [] then
    match unloadPassengers s with
    | none => none
    | some (s1, unload_pause) =>
      let r :=
        if s1.elevator.passengers ≠ MAX_PASSENGERS ∧ s1.elevator.weight ≠ MAX_WEIGHT then
          loadPassengers s1
        else some (s1, 0)
      match r with
      | none => none
      | some (s2, load_pause) =>
        let s3 : State :=
          if unload_pause ≠ 0 ∨ load_pause ≠ 0 then
            { s2 with elevator := { s2.elevator with state := 2 } }
          else s2
        if s3.passengers.waiting ≠ [] ∨ s3.passengers.onElevator ≠ [] then
          some (moveElevator (changeElevatorState s3))
        else if s3.elevator.deactiving ≠ 0 then
          some { s3 with elevator := { s3.elevator with state := 0, deactiving := 0 } }
        else some s3
  else if s.elevator.started ≠ 0 then
    some { s with elevator := { s.elevator with state := 1 } }
  else
    some { s with elevator := { s.elevator with state := 0 } }

/-- The state written by `setup_elevator`. -/
def setup_elevator : State where
  elevator :=
    { state := 0, current_floor := 1, next_floor := 2, passengers := 0, weight := 0,
      deactiving := 0, started := 0 }
  passengers := { waiting := [], onElevator := [], serviced := 0 }
  serviced_on_floor := fun _ => 0
  waiting_on_floor := fun _ => 0

/-- The states the module can be in: the initial state and whatever the
three system calls, with the lock acquired or not, and scheduler ticks make
of it. -/
inductive Reachable : State → Prop
  | setup : Reachable setup_elevator
  | start (s : State) : Reachable s → Reachable (start_elevator s).1
  | request (lock : Int) (allocated : Bool) (s s1 : State)
      (passenger_type start_floor destination_floor result : Int) :
      Reachable s →
      issue_request lock allocated s passenger_type start_floor destination_floor =
        some (s1, result) →
      Reachable s1
  | stop (lock : Int) (s : State) : Reachable s → Reachable (stop_elevator lock s).1
  | tick (s s1 : State) : Reachable s → thread_run_body s = some s1 → Reachable s1

/-- Run `n` scheduler ticks in a row. -/
def ticks : Nat → State → Option State
  | 0, s => some s
  | n + 1, s =>
    match thread_run_body s with
    | none => none
    | some s1 => ticks n s1


/-! ## Closed forms and the invariant -/

/-- Summed occupancy units of a list of passengers. -/
def unitSum (ps : List Passenger) : Int := (ps.map getPassengerUnit).sum

/-- Summed weight units of a list of passengers. -/
def weightSum (ps : List Passenger) : Int := (ps.map getPassengerWeight).sum

/-- Number of passengers of a list whose origin is floor `i + 1`. -/
def originCount (ps : List Passenger) (i : Fin FLOORS) : Int :=
  ((ps.filter fun p => p.start - 1 = ((i : Nat) : Int)).length : Int)

/-- The aboard passengers that leave at floor `cur`. -/
def leaving (cur : Int) (ps : List Passenger) : List Passenger :=
  ps.filter fun p => p.destination = cur

/-- The aboard passengers that stay at floor `cur`. -/
def staying (cur : Int) (ps : List Passenger) : List Passenger :=
  ps.filter fun p => ¬ p.destination = cur

/-- The state after the passengers `out` have left the elevator and `aboard`
remain: the closed form of what the unloading loop computes. -/
def unloadedState (s : State) (out aboard : List Passenger) : State :=
  { elevator := { s.elevator with
      passengers := s.elevator.passengers - unitSum out
      weight := s.elevator.weight - weightSum out }
    passengers :=
      { waiting := s.passengers.waiting
        onElevator := aboard
        serviced := s.passengers.serviced + (out.length : Int) }
    serviced_on_floor := fun i => s.serviced_on_floor i + originCount out i
    waiting_on_floor := s.waiting_on_floor }

/-- The admission check `fits` in the wording of the specification, on an
occupancy and a weight load: adding the units and the weight of the
passenger keeps both within the limits. -/
def fits (occupancy weight_load : Int) (p : Passenger) : Prop :=
  occupancy + getPassengerUnit p ≤ MAX_PASSENGERS ∧
    weight_load + getPassengerWeight p ≤ MAX_WEIGHT

instance (occupancy weight_load : Int) (p : Passenger) :
    Decidable (fits occupancy weight_load p) := by
  unfold fits; infer_instance

/-- The loading pass in the wording of the specification: the passengers of
a waiting queue that board at floor `cur`, scanning the queue once in order
with a running occupancy and weight load; a passenger boards when its
origin is `cur` and it fits at that moment. -/
def boarding (cur : Int) : Int → Int → List Passenger → List Passenger
  | _, _, [] => []
  | occupancy, weight_load, p :: rest =>
    if p.start = cur ∧ fits occupancy weight_load p then
      p :: boarding cur (occupancy + getPassengerUnit p)
        (weight_load + getPassengerWeight p) rest
    else boarding cur occupancy weight_load rest

/-- The loading pass in the wording of the specification: the passengers of
a waiting queue that do not board in that scan. -/
def remaining (cur : Int) : Int → Int → List Passenger → List Passenger
  | _, _, [] => []
  | occupancy, weight_load, p :: rest =>
    if p.start = cur ∧ fits occupancy weight_load p then
      remaining cur (occupancy + getPassengerUnit p)
        (weight_load + getPassengerWeight p) rest
    else p :: remaining cur occupancy weight_load rest

/-- The state after the passengers `moved` have boarded and `stayed` remain
waiting: the closed form of what the loading loop computes. -/
def loadedState (s : State) (moved stayed : List Passenger) : State :=
  { elevator := { s.elevator with
      passengers := s.elevator.passengers + unitSum moved
      weight := s.elevator.weight + weightSum moved }
    passengers :=
      { waiting := stayed
        onElevator := s.passengers.onElevator ++ moved
        serviced := s.passengers.serviced }
    serviced_on_floor := s.serviced_on_floor
    waiting_on_floor := fun i =>
      if ((i : Nat) : Int) = s.elevator.current_floor - 1 then
        s.waiting_on_floor i - (moved.length : Int)
      else s.waiting_on_floor i }

/-- A passenger record as `issue_request` creates them: type in 1..4 and
both floors inside the building. -/
def Passenger.valid (p : Passenger) : Prop :=
  (1 ≤ p.type ∧ p.type ≤ 4) ∧ (1 ≤ p.start ∧ p.start ≤ (FLOORS : Int)) ∧
    (1 ≤ p.destination ∧ p.destination ≤ (FLOORS : Int))

/-- The invariant of the reachable states. -/
structure Inv (s : State) : Prop where
  cur_range : 1 ≤ s.elevator.current_floor ∧ s.elevator.current_floor ≤ (FLOORS : Int)
  next_range : 1 ≤ s.elevator.next_floor ∧ s.elevator.next_floor ≤ (FLOORS : Int)
  next_adjacent : s.elevator.next_floor = s.elevator.current_floor + 1 ∨
    s.elevator.next_floor = s.elevator.current_floor - 1
  waiting_valid : ∀ p ∈ s.passengers.waiting, p.valid
  aboard_valid : ∀ p ∈ s.passengers.onElevator, p.valid
  occupancy_eq : s.elevator.passengers = unitSum s.passengers.onElevator
  weight_eq : s.elevator.weight = weightSum s.passengers.onElevator
  occupancy_le : s.elevator.passengers ≤ MAX_PASSENGERS
  weight_le : s.elevator.weight ≤ MAX_WEIGHT
  stopping_not_started : s.elevator.deactiving ≠ 0 → s.elevator.started = 0
  serviced_eq : s.passengers.serviced = ∑ i : Fin FLOORS, s.serviced_on_floor i

/-- The waiting tally: every waiting counter is the number of passengers in
the waiting queue with that origin. -/
def Tally (s : State) : Prop :=
  ∀ i : Fin FLOORS, s.waiting_on_floor i = originCount s.passengers.waiting i

/-- The states reached from the initial state when every `stop_elevator`
acquires the lock (requests may still be interrupted). -/
inductive ReachableLocked : State → Prop
  | setup : ReachableLocked setup_elevator
  | start (s : State) : ReachableLocked s → ReachableLocked (start_elevator s).1
  | request (lock : Int) (allocated : Bool) (s s1 : State)
      (passenger_type start_floor destination_floor result : Int) :
      ReachableLocked s →
      issue_request lock allocated s passenger_type start_floor destination_floor =
        some (s1, result) →
      ReachableLocked s1
  | stop (s : State) : ReachableLocked s → ReachableLocked (stop_elevator 0 s).1
  | tick (s s1 : State) :
      ReachableLocked s → thread_run_body s = some s1 → ReachableLocked s1

/-- The states reached from the initial state without any call of
`start_elevator`. -/
inductive Unstarted : State → Prop
  | setup : Unstarted setup_elevator
  | request (lock : Int) (allocated : Bool) (s s1 : State)
      (passenger_type start_floor destination_floor result : Int) :
      Unstarted s →
      issue_request lock allocated s passenger_type start_floor destination_floor =
        some (s1, result) →
      Unstarted s1
  | stop (lock : Int) (s : State) : Unstarted s → Unstarted (stop_elevator lock s).1
  | tick (s s1 : State) : Unstarted s → thread_run_body s = some s1 → Unstarted s1

/-- The state after `n` scheduler ticks from `s` (`s` itself if a tick has
no defined result). -/
def afterTicks (n : Nat) (s : State) : State := (ticks n s).getD s

/-- The elevator started from the initial state. -/
def justStarted : State := (start_elevator setup_elevator).1

/-- The state after `issue_request` with the lock acquired and the record
allocated (`s` itself if the call has no defined result). -/
def requested (s : State) (passenger_type start_floor destination_floor : Int) : State :=
  ((issue_request 0 true s passenger_type start_floor destination_floor).getD (s, 1)).1

/-- The scenario state: started, then one adult requests a ride from floor 1
to floor 5. -/
def adultRequested : State := requested justStarted 1 1 5

/-- A second scenario state: started, then a bellhop requests a ride from
floor 2 to floor 1 and a child from floor 3 to floor 10. -/
def twoRequested : State := requested (requested justStarted 4 2 1) 2 3 10

/-- The scenario state four ticks after the request of the adult: the elevator is
at floor 5 and the adult, bound for floor 5, is still aboard. -/
def adultArrived : State := afterTicks 4 adultRequested

/-- The waiting passengers that board in one loading pass over state `s`. -/
def boarded (s : State) : List Passenger :=
  boarding s.elevator.current_floor s.elevator.passengers s.elevator.weight
    s.passengers.waiting

/-- The waiting passengers that keep waiting after one loading pass over
state `s`. -/
def leftWaiting (s : State) : List Passenger :=
  remaining s.elevator.current_floor s.elevator.passengers s.elevator.weight
    s.passengers.waiting

/-- The state after `n` requests of an adult for a ride from floor 1 to
floor 2. -/
def requestAdults : Nat → State → State
  | 0, s => s
  | n + 1, s => requestAdults n (requested s 1 1 2)

/-- The scenario state of the capacity scenario: started, then eleven adults
request a ride from floor 1 to floor 2. -/
def elevenAdults : State := requestAdults 11 justStarted

/-- The closed form of the state after `unloadPassengers`. -/
def unloaded (s : State) : State :=
  unloadedState s (leaving s.elevator.current_floor s.passengers.onElevator)
    (staying s.elevator.current_floor s.passengers.onElevator)

/-- The closed form of the state after `loadPassengers`. -/
def loaded (s : State) : State := loadedState s (boarded s) (leftWaiting s)

/-- The pause for loading in the loop body of `thread_run`: state 2 when
a passenger got off or on. -/
def pauseFor (unload_pause load_pause : Int) (s : State) : State :=
  if unload_pause ≠ 0 ∨ load_pause ≠ 0 then
    { s with elevator := { s.elevator with state := 2 } }
  else s

/-- The end of the first branch of the loop body of `thread_run`: move when
a passenger is left, go offline when a stop was asked for. -/
def settle (s : State) : State :=
  if s.passengers.waiting ≠ [] ∨ s.passengers.onElevator ≠ [] then
    moveElevator (changeElevatorState s)
  else if s.elevator.deactiving ≠ 0 then
    { s with elevator := { s.elevator with state := 0, deactiving := 0 } }
  else s

/-- The closed form of the state after one scheduler tick. -/
def tickResult (s : State) : State :=
  if s.passengers.waiting ≠ [] ∨ s.passengers.onElevator ≠ [] then
    settle (pauseFor
      (if leaving s.elevator.current_floor s.passengers.onElevator = [] then 0 else 1)
      (if boarded (unloaded s) = [] then 0 else 1)
      (loaded (unloaded s)))
  else if s.elevator.started ≠ 0 then
    { s with elevator := { s.elevator with state := 1 } }
  else
    { s with elevator := { s.elevator with state := 0 } }

/-- The loop body of `thread_run` without the test for a full elevator:
`loadPassengers` is called in every tick that has a passenger. -/
def thread_run_body_ungated (s : State) : Option State :=
  if s.passengers.waiting ≠ [] ∨ s.passengers.onElevator ≠ [] then
    match unloadPassengers s with
    | none => none
    | some (s1, unload_pause) =>
      match loadPassengers s1 with
      | none => none
      | some (s2, load_pause) =>
        let s3 : State :=
          if unload_pause ≠ 0 ∨ load_pause ≠ 0 then
            { s2 with elevator := { s2.elevator with state := 2 } }
          else s2
        if s3.passengers.waiting ≠ [] ∨ s3.passengers.onElevator ≠ [] then
          some (moveElevator (changeElevatorState s3))
        else if s3.elevator.deactiving ≠ 0 then
          some { s3 with elevator := { s3.elevator with state := 0, deactiving := 0 } }
        else some s3
  else if s.elevator.started ≠ 0 then
    some { s with elevator := { s.elevator with state := 1 } }
  else
    some { s with elevator := { s.elevator with state := 0 } }

/-- One step of the module: a system call or a scheduler tick. -/
inductive Step : State → State → Prop
  | start (s : State) : Step s (start_elevator s).1
  | request (lock : Int) (allocated : Bool) (s s1 : State)
      (passenger_type start_floor destination_floor result : Int) :
      issue_request lock allocated s passenger_type start_floor destination_floor =
        some (s1, result) →
      Step s s1
  | stop (lock : Int) (s : State) : Step s (stop_elevator lock s).1
  | tick (s s1 : State) : thread_run_body s = some s1 → Step s s1

/-- The current and the next floor after `changeElevatorState` and
`moveElevator`, from the current floor `c` and the next floor `n`. -/
def moveFloors (c n : Int) : Int × Int :=
  if n > c then
    (c + 1, if c + 1 = (FLOORS : Int) then c + 1 - 1 else c + 1 + 1)
  else
    (c - 1, if c - 1 = 1 then c - 1 + 1 else c - 1 - 1)

/-- The floor the elevator is at after `k` moves, from the current floor `c`
and the next floor `n`. -/
def floorAfter : Nat → Int → Int → Int
  | 0, c, _ => c
  | k + 1, c, n => floorAfter k (moveFloors c n).1 (moveFloors c n).2

/-- The floors of the building, 1 to `FLOORS`. -/
def floorList : List Int := [1, 2, 3, 4, 5, 6, 7, 8, 9, 10]

/-- The state in which a drain has ended: both queues empty, the elevator
offline and not started. -/
def Drained (s : State) : Prop :=
  s.passengers.waiting = [] ∧ s.passengers.onElevator = [] ∧ s.elevator.state = 0 ∧
    s.elevator.started = 0

/-- The observation of a state that the delivery scenario is about:
serviced counter, both queues, occupancy, weight and current floor. -/
def deliveryView (s : State) : Int × List Passenger × List Passenger × Int × Int × Int :=
  (s.passengers.serviced, s.passengers.waiting, s.passengers.onElevator,
    s.elevator.passengers, s.elevator.weight, s.elevator.current_floor)

/-- A third scenario state: started, an adult asks at floor 5, the elevator
moves up one floor, then an adult asks at floor 1 for floor 1. -/
def lateRequest : State := requested (afterTicks 1 (requested justStarted 1 5 5)) 1 1 1

/-! ## Lemmas -/

theorem floorIndex_eq_some (i : Int) (h : 0 ≤ i ∧ i < (FLOORS : Int)) :
    ∃ k : Fin FLOORS, floorIndex i = some k ∧ ((k : Nat) : Int) = i := by
  refine ⟨⟨i.toNat, by have h2 := h.2; simp only [FLOORS] at h2; omega⟩, ?_, ?_⟩
  · simp only [floorIndex, h]
    simp
  · simp only; omega

theorem unloadedState_nil (s : State) : unloadedState s [] s.passengers.onElevator = s := by
  cases s with
  | mk e p sf wf =>
    cases e; cases p
    simp [unloadedState, unitSum, weightSum, originCount]

theorem unloadLoop_eq (rest : List Passenger) :
    ∀ (kept : List Passenger) (s : State) (unloaded : Int),
      (∀ p ∈ rest, p.destination = s.elevator.current_floor →
        1 ≤ p.start ∧ p.start ≤ (FLOORS : Int)) →
      s.passengers.onElevator = kept ++ rest →
      unloadLoop kept rest s unloaded =
        some (unloadedState s (leaving s.elevator.current_floor rest)
                (kept ++ staying s.elevator.current_floor rest),
              if leaving s.elevator.current_floor rest = [] then unloaded else 1) := by
  induction rest with
  | nil =>
    intro kept s unloaded _ hs
    simp only [unloadLoop, leaving, staying, List.filter_nil, if_true]
    rw [← hs, unloadedState_nil]
  | cons p rest ih =>
    intro kept s unloaded hv hs
    by_cases hp : p.destination = s.elevator.current_floor
    · have hr := hv p (List.mem_cons_self _ _) hp
      obtain ⟨k, hk, hkv⟩ := floorIndex_eq_some (p.start - 1) (by omega)
      simp only [unloadLoop, hp, if_true, hk]
      rw [ih]
      · simp only [leaving, staying, List.filter_cons, hp, decide_True, if_true, not_true,
          decide_False, if_false]
        simp only [reduceCtorEq, if_false, ite_self]
        congr 2
        simp only [unloadedState, unitSum, weightSum, List.map_cons, List.sum_cons,
          List.length_cons]
        congr 1
        · congr 1 <;> omega
        · congr 1
          push_cast; omega
        · funext i
          rw [Function.update_apply]
          by_cases hik : i = k
          · subst hik
            simp [originCount, List.filter_cons, hkv]
            omega
          · have : ¬ (p.start - 1 = ((i : Nat) : Int)) := by
              intro h; apply hik; apply Fin.ext; omega
            simp [originCount, List.filter_cons, hik, this]
      · intro q hq hd
        exact hv q (List.mem_cons_of_mem _ hq) hd
      · rfl
    · simp only [unloadLoop, hp, if_false]
      rw [ih (kept ++ [p]) s unloaded]
      · simp [leaving, staying, List.filter_cons, hp]
      · intro q hq hd
        exact hv q (List.mem_cons_of_mem _ hq) hd
      · rw [hs]; simp

theorem loadedState_nil (s : State) : loadedState s [] s.passengers.waiting = s := by
  cases s with
  | mk e p sf wf =>
    cases e; cases p
    simp [loadedState, unitSum, weightSum]

theorem loadLoop_eq (rest : List Passenger) :
    ∀ (kept : List Passenger) (s : State) (loaded : Int),
      (boarding s.elevator.current_floor s.elevator.passengers s.elevator.weight rest ≠ [] →
        1 ≤ s.elevator.current_floor ∧ s.elevator.current_floor ≤ (FLOORS : Int)) →
      s.passengers.waiting = kept ++ rest →
      loadLoop kept rest s loaded =
        some (loadedState s
                (boarding s.elevator.current_floor s.elevator.passengers s.elevator.weight rest)
                (kept ++
                  remaining s.elevator.current_floor s.elevator.passengers s.elevator.weight rest),
              if boarding s.elevator.current_floor s.elevator.passengers s.elevator.weight rest
                  = [] then loaded else 1) := by
  induction rest with
  | nil =>
    intro kept s loaded _ hs
    simp only [loadLoop, boarding, remaining, if_true]
    rw [← hs, loadedState_nil]
  | cons p rest ih =>
    intro kept s loaded hv hs
    by_cases hp : p.start = s.elevator.current_floor ∧
        fits s.elevator.passengers s.elevator.weight p
    · have hr := hv (by simp [boarding, hp])
      obtain ⟨hp1, hp2⟩ := hp
      have hfit : getPassengerWeight p + s.elevator.weight ≤ MAX_WEIGHT ∧
          getPassengerUnit p + s.elevator.passengers ≤ MAX_PASSENGERS := by
        unfold fits at hp2; constructor <;> omega
      obtain ⟨k, hk, hkv⟩ := floorIndex_eq_some (p.start - 1) (by omega)
      simp only [loadLoop, hp1, if_true, hfit, and_self]
      rw [hp1] at hk hkv
      simp only [hk]
      rw [ih]
      · simp only [boarding, remaining, hp1, hp2, and_self, if_true]
        simp only [reduceCtorEq, if_false, ite_self]
        congr 2
        simp only [loadedState, unitSum, weightSum, List.map_cons, List.sum_cons,
          List.length_cons, List.append_assoc, List.singleton_append]
        congr 1
        · congr 1 <;> omega
        · funext i
          rw [Function.update_apply]
          by_cases hik : i = k
          · subst hik
            simp [hkv]
            omega
          · have : ¬ (((i : Nat) : Int) = s.elevator.current_floor - 1) := by
              intro h; apply hik; apply Fin.ext; omega
            simp [hik, this]
      · intro _
        exact hr
      · rfl
    · have hcode : ¬ (p.start = s.elevator.current_floor ∧
          (getPassengerWeight p + s.elevator.weight ≤ MAX_WEIGHT ∧
            getPassengerUnit p + s.elevator.passengers ≤ MAX_PASSENGERS)) := by
        intro h; apply hp; refine ⟨h.1, ?_⟩; unfold fits; constructor <;> omega
      have hb : boarding s.elevator.current_floor s.elevator.passengers s.elevator.weight
          (p :: rest) =
          boarding s.elevator.current_floor s.elevator.passengers s.elevator.weight rest := by
        simp [boarding, hp]
      have hrm : remaining s.elevator.current_floor s.elevator.passengers s.elevator.weight
          (p :: rest) =
          p :: remaining s.elevator.current_floor s.elevator.passengers s.elevator.weight
            rest := by
        simp [remaining, hp]
      have hstep : loadLoop kept (p :: rest) s loaded = loadLoop (kept ++ [p]) rest s loaded := by
        by_cases h1 : p.start = s.elevator.current_floor
        · have h2 : ¬ (getPassengerWeight p + s.elevator.weight ≤ MAX_WEIGHT ∧
              getPassengerUnit p + s.elevator.passengers ≤ MAX_PASSENGERS) :=
            fun h => hcode ⟨h1, h⟩
          simp only [loadLoop, h1, if_true, h2, if_false]
        · simp only [loadLoop, h1, if_false]
      rw [hstep, hb, hrm, ih (kept ++ [p]) s loaded]
      · simp
      · rw [← hb]; exact hv
      · rw [hs]; simp

theorem getPassengerUnit_nonneg (p : Passenger) : 0 ≤ getPassengerUnit p := by
  unfold getPassengerUnit ADULT CHILD ROOM_SERVICE BELLHOP
  split_ifs <;> decide

theorem getPassengerWeight_nonneg (p : Passenger) : 0 ≤ getPassengerWeight p := by
  unfold getPassengerWeight ADULT_WEIGHT CHILD_WEIGHT ROOM_SERVICE_WEIGHT BELLHOP_WEIGHT
  split_ifs <;> decide

theorem unitSum_nil : unitSum [] = 0 := rfl

theorem weightSum_nil : weightSum [] = 0 := rfl

theorem unitSum_cons (p : Passenger) (ps : List Passenger) :
    unitSum (p :: ps) = getPassengerUnit p + unitSum ps := by
  simp [unitSum]

theorem weightSum_cons (p : Passenger) (ps : List Passenger) :
    weightSum (p :: ps) = getPassengerWeight p + weightSum ps := by
  simp [weightSum]

theorem unitSum_append (ps qs : List Passenger) :
    unitSum (ps ++ qs) = unitSum ps + unitSum qs := by
  simp [unitSum]

theorem weightSum_append (ps qs : List Passenger) :
    weightSum (ps ++ qs) = weightSum ps + weightSum qs := by
  simp [weightSum]

theorem unitSum_nonneg (ps : List Passenger) : 0 ≤ unitSum ps := by
  induction ps with
  | nil => simp [unitSum_nil]
  | cons p ps ih =>
    rw [unitSum_cons]
    have := getPassengerUnit_nonneg p
    omega

theorem weightSum_nonneg (ps : List Passenger) : 0 ≤ weightSum ps := by
  induction ps with
  | nil => simp [weightSum_nil]
  | cons p ps ih =>
    rw [weightSum_cons]
    have := getPassengerWeight_nonneg p
    omega

theorem unitSum_leaving_staying (cur : Int) (ps : List Passenger) :
    unitSum (leaving cur ps) + unitSum (staying cur ps) = unitSum ps := by
  induction ps with
  | nil => simp [leaving, staying, unitSum_nil]
  | cons p ps ih =>
    unfold leaving staying at ih ⊢
    by_cases hp : p.destination = cur
    · simp only [List.filter_cons, hp, decide_True, if_true, not_true, decide_False, if_false,
        unitSum_cons, reduceCtorEq]
      omega
    · simp only [List.filter_cons, hp, decide_False, if_false, not_false_eq_true, decide_True,
        if_true, unitSum_cons, reduceCtorEq]
      omega

theorem weightSum_leaving_staying (cur : Int) (ps : List Passenger) :
    weightSum (leaving cur ps) + weightSum (staying cur ps) = weightSum ps := by
  induction ps with
  | nil => simp [leaving, staying, weightSum_nil]
  | cons p ps ih =>
    unfold leaving staying at ih ⊢
    by_cases hp : p.destination = cur
    · simp only [List.filter_cons, hp, decide_True, if_true, not_true, decide_False, if_false,
        weightSum_cons, reduceCtorEq]
      omega
    · simp only [List.filter_cons, hp, decide_False, if_false, not_false_eq_true, decide_True,
        if_true, weightSum_cons, reduceCtorEq]
      omega

theorem mem_boarding (cur : Int) (ps : List Passenger) :
    ∀ (occ wt : Int) (q : Passenger),
      q ∈ boarding cur occ wt ps → q ∈ ps ∧ q.start = cur := by
  induction ps with
  | nil => intro occ wt q h; simp [boarding] at h
  | cons p ps ih =>
    intro occ wt q h
    by_cases hp : p.start = cur ∧ fits occ wt p
    · simp only [boarding, hp, and_self, if_true, List.mem_cons] at h
      rcases h with h | h
      · subst h; exact ⟨List.mem_cons_self _ _, hp.1⟩
      · exact ⟨List.mem_cons_of_mem _ (ih _ _ q h).1, (ih _ _ q h).2⟩
    · simp only [boarding, hp, if_false] at h
      exact ⟨List.mem_cons_of_mem _ (ih _ _ q h).1, (ih _ _ q h).2⟩

theorem mem_remaining (cur : Int) (ps : List Passenger) :
    ∀ (occ wt : Int) (q : Passenger), q ∈ remaining cur occ wt ps → q ∈ ps := by
  induction ps with
  | nil => intro occ wt q h; simp [remaining] at h
  | cons p ps ih =>
    intro occ wt q h
    by_cases hp : p.start = cur ∧ fits occ wt p
    · simp only [remaining, hp, and_self, if_true] at h
      exact List.mem_cons_of_mem _ (ih _ _ q h)
    · simp only [remaining, hp, if_false, List.mem_cons] at h
      rcases h with h | h
      · subst h; exact List.mem_cons_self _ _
      · exact List.mem_cons_of_mem _ (ih _ _ q h)

theorem boarding_within_limits (cur : Int) (ps : List Passenger) :
    ∀ (occ wt : Int), occ ≤ MAX_PASSENGERS → wt ≤ MAX_WEIGHT →
      occ + unitSum (boarding cur occ wt ps) ≤ MAX_PASSENGERS ∧
        wt + weightSum (boarding cur occ wt ps) ≤ MAX_WEIGHT := by
  induction ps with
  | nil => intro occ wt h1 h2; simp [boarding, unitSum_nil, weightSum_nil, h1, h2]
  | cons p ps ih =>
    intro occ wt h1 h2
    by_cases hp : p.start = cur ∧ fits occ wt p
    · simp only [boarding, hp, and_self, if_true, unitSum_cons, weightSum_cons]
      have hf := hp.2
      unfold fits at hf
      have := ih (occ + getPassengerUnit p) (wt + getPassengerWeight p) hf.1 hf.2
      omega
    · simp only [boarding, hp, if_false]
      exact ih occ wt h1 h2

theorem originCount_nil (i : Fin FLOORS) : originCount [] i = 0 := rfl

theorem originCount_cons (p : Passenger) (ps : List Passenger) (i : Fin FLOORS) :
    originCount (p :: ps) i =
      (if p.start - 1 = ((i : Nat) : Int) then 1 else 0) + originCount ps i := by
  unfold originCount
  by_cases h : p.start - 1 = ((i : Nat) : Int)
  · simp [List.filter_cons, h]; omega
  · simp [List.filter_cons, h]

theorem originCount_append (ps qs : List Passenger) (i : Fin FLOORS) :
    originCount (ps ++ qs) i = originCount ps i + originCount qs i := by
  simp [originCount]

theorem originCount_boarding_remaining (cur : Int) (ps : List Passenger) (i : Fin FLOORS) :
    ∀ (occ wt : Int),
      originCount (remaining cur occ wt ps) i =
        originCount ps i -
          (if ((i : Nat) : Int) = cur - 1 then ((boarding cur occ wt ps).length : Int) else 0) := by
  induction ps with
  | nil => intro occ wt; simp [remaining, boarding, originCount_nil]
  | cons p ps ih =>
    intro occ wt
    by_cases hp : p.start = cur ∧ fits occ wt p
    · simp only [remaining, boarding, hp, and_self, if_true, originCount_cons, List.length_cons]
      rw [ih]
      have hp1 := hp.1
      split_ifs <;> push_cast <;> omega
    · simp only [remaining, boarding, hp, if_false, originCount_cons]
      rw [ih]
      omega

theorem Inv.of_same {s t : State} (h : Inv s) (hp : t.passengers = s.passengers)
    (hc : t.elevator.current_floor = s.elevator.current_floor)
    (hn : t.elevator.next_floor = s.elevator.next_floor)
    (ho : t.elevator.passengers = s.elevator.passengers)
    (hwt : t.elevator.weight = s.elevator.weight)
    (hd : t.elevator.deactiving = s.elevator.deactiving)
    (hs : t.elevator.started = s.elevator.started)
    (hsf : t.serviced_on_floor = s.serviced_on_floor) : Inv t where
  cur_range := by rw [hc]; exact h.cur_range
  next_range := by rw [hn]; exact h.next_range
  next_adjacent := by rw [hn, hc]; exact h.next_adjacent
  waiting_valid := by rw [hp]; exact h.waiting_valid
  aboard_valid := by rw [hp]; exact h.aboard_valid
  occupancy_eq := by rw [ho, hp]; exact h.occupancy_eq
  weight_eq := by rw [hwt, hp]; exact h.weight_eq
  occupancy_le := by rw [ho]; exact h.occupancy_le
  weight_le := by rw [hwt]; exact h.weight_le
  stopping_not_started := by rw [hd, hs]; exact h.stopping_not_started
  serviced_eq := by rw [hp, hsf]; exact h.serviced_eq

theorem inv_setup : Inv setup_elevator where
  cur_range := by decide
  next_range := by decide
  next_adjacent := by decide
  waiting_valid := by intro p hp; simp [setup_elevator] at hp
  aboard_valid := by intro p hp; simp [setup_elevator] at hp
  occupancy_eq := by decide
  weight_eq := by decide
  occupancy_le := by decide
  weight_le := by decide
  stopping_not_started := by intro h; rfl
  serviced_eq := by simp [setup_elevator]

theorem inv_start (s : State) (h : Inv s) : Inv (start_elevator s).1 := by
  unfold start_elevator
  split_ifs
  · exact h
  · exact
      { cur_range := h.cur_range
        next_range := h.next_range
        next_adjacent := h.next_adjacent
        waiting_valid := h.waiting_valid
        aboard_valid := h.aboard_valid
        occupancy_eq := h.occupancy_eq
        weight_eq := h.weight_eq
        occupancy_le := h.occupancy_le
        weight_le := h.weight_le
        stopping_not_started := by intro hh; simp at hh
        serviced_eq := h.serviced_eq }

theorem inv_stop (lock : Int) (s : State) (h : Inv s) : Inv (stop_elevator lock s).1 := by
  unfold stop_elevator
  split_ifs
  · exact h
  · exact h
  · exact
      { cur_range := h.cur_range
        next_range := h.next_range
        next_adjacent := h.next_adjacent
        waiting_valid := by intro p hp; simp at hp
        aboard_valid := h.aboard_valid
        occupancy_eq := h.occupancy_eq
        weight_eq := h.weight_eq
        occupancy_le := h.occupancy_le
        weight_le := h.weight_le
        stopping_not_started := by intro _; rfl
        serviced_eq := h.serviced_eq }
  · exact
      { cur_range := h.cur_range
        next_range := h.next_range
        next_adjacent := h.next_adjacent
        waiting_valid := h.waiting_valid
        aboard_valid := h.aboard_valid
        occupancy_eq := h.occupancy_eq
        weight_eq := h.weight_eq
        occupancy_le := h.occupancy_le
        weight_le := h.weight_le
        stopping_not_started := by intro _; rfl
        serviced_eq := h.serviced_eq }

theorem inv_request (lock : Int) (allocated : Bool) (s s1 : State)
    (passenger_type start_floor destination_floor result : Int) (h : Inv s)
    (hr : issue_request lock allocated s passenger_type start_floor destination_floor =
      some (s1, result)) : Inv s1 := by
  unfold issue_request at hr
  split_ifs at hr with h1 h2 h3 h4 h5 h6 h7
  · cases hr; exact h
  · cases hr; exact h
  · cases hr; exact h
  · cases hr; exact h
  · cases hr
    exact
        { cur_range := h.cur_range
          next_range := h.next_range
          next_adjacent := h.next_adjacent
          waiting_valid := by
            intro p hp
            simp only [List.mem_append, List.mem_singleton] at hp
            rcases hp with hp | hp
            · exact h.waiting_valid p hp
            · subst hp
              simp only [Passenger.valid]
              omega
          aboard_valid := h.aboard_valid
          occupancy_eq := h.occupancy_eq
          weight_eq := h.weight_eq
          occupancy_le := h.occupancy_le
          weight_le := h.weight_le
          stopping_not_started := h.stopping_not_started
          serviced_eq := h.serviced_eq }
  · cases hr; exact h
  · cases hr; exact h

theorem move_up (s : State) (h : s.elevator.next_floor > s.elevator.current_floor) :
    moveElevator (changeElevatorState s) =
      { s with elevator := { s.elevator with
          state := 3
          current_floor := s.elevator.current_floor + 1
          next_floor :=
            if s.elevator.current_floor + 1 = (FLOORS : Int) then s.elevator.current_floor + 1 - 1
            else s.elevator.current_floor + 1 + 1 } } := by
  simp [moveElevator, changeElevatorState, h]

theorem move_down (s : State) (h : ¬ s.elevator.next_floor > s.elevator.current_floor) :
    moveElevator (changeElevatorState s) =
      { s with elevator := { s.elevator with
          state := 4
          current_floor := s.elevator.current_floor - 1
          next_floor :=
            if s.elevator.current_floor - 1 = 1 then s.elevator.current_floor - 1 + 1
            else s.elevator.current_floor - 1 - 1 } } := by
  simp [moveElevator, changeElevatorState, h]

theorem inv_move (s : State) (h : Inv s) : Inv (moveElevator (changeElevatorState s)) := by
  have hc := h.cur_range
  have hn := h.next_range
  have ha := h.next_adjacent
  by_cases hd : s.elevator.next_floor > s.elevator.current_floor
  · rw [move_up s hd]
    exact
      { cur_range := by simp only; omega
        next_range := by simp only; split_ifs <;> omega
        next_adjacent := by simp only; split_ifs <;> omega
        waiting_valid := h.waiting_valid
        aboard_valid := h.aboard_valid
        occupancy_eq := h.occupancy_eq
        weight_eq := h.weight_eq
        occupancy_le := h.occupancy_le
        weight_le := h.weight_le
        stopping_not_started := h.stopping_not_started
        serviced_eq := h.serviced_eq }
  · rw [move_down s hd]
    exact
      { cur_range := by simp only; omega
        next_range := by simp only; split_ifs <;> omega
        next_adjacent := by simp only; split_ifs <;> omega
        waiting_valid := h.waiting_valid
        aboard_valid := h.aboard_valid
        occupancy_eq := h.occupancy_eq
        weight_eq := h.weight_eq
        occupancy_le := h.occupancy_le
        weight_le := h.weight_le
        stopping_not_started := h.stopping_not_started
        serviced_eq := h.serviced_eq }

theorem unloadPassengers_eq (s : State)
    (hv : ∀ p ∈ s.passengers.onElevator, p.destination = s.elevator.current_floor →
      1 ≤ p.start ∧ p.start ≤ (FLOORS : Int)) :
    unloadPassengers s =
      some (unloadedState s (leaving s.elevator.current_floor s.passengers.onElevator)
              (staying s.elevator.current_floor s.passengers.onElevator),
            if leaving s.elevator.current_floor s.passengers.onElevator = [] then 0 else 1) := by
  unfold unloadPassengers
  rw [unloadLoop_eq s.passengers.onElevator [] s 0 hv rfl]
  rfl

theorem loadPassengers_eq (s : State)
    (hv : boarding s.elevator.current_floor s.elevator.passengers s.elevator.weight
        s.passengers.waiting ≠ [] →
      1 ≤ s.elevator.current_floor ∧ s.elevator.current_floor ≤ (FLOORS : Int)) :
    loadPassengers s =
      some (loadedState s
              (boarding s.elevator.current_floor s.elevator.passengers s.elevator.weight
                s.passengers.waiting)
              (remaining s.elevator.current_floor s.elevator.passengers s.elevator.weight
                s.passengers.waiting),
            if boarding s.elevator.current_floor s.elevator.passengers s.elevator.weight
                s.passengers.waiting = [] then 0 else 1) := by
  unfold loadPassengers
  rw [loadLoop_eq s.passengers.waiting [] s 0 hv rfl]
  rfl

theorem sum_originCount (ps : List Passenger)
    (hv : ∀ p ∈ ps, 1 ≤ p.start ∧ p.start ≤ (FLOORS : Int)) :
    ∑ i : Fin FLOORS, originCount ps i = (ps.length : Int) := by
  induction ps with
  | nil => simp [originCount_nil]
  | cons p ps ih =>
    obtain ⟨k, _, hkv⟩ := floorIndex_eq_some (p.start - 1)
      (by have := hv p (List.mem_cons_self _ _); omega)
    have hone : ∑ i : Fin FLOORS, (if p.start - 1 = ((i : Nat) : Int) then (1 : Int) else 0)
        = 1 := by
      have heq : ∀ i : Fin FLOORS,
          (if p.start - 1 = ((i : Nat) : Int) then (1 : Int) else 0) =
            if k = i then 1 else 0 := by
        intro i
        by_cases hik : k = i
        · subst hik; rw [if_pos hkv.symm, if_pos rfl]
        · have : ¬ (p.start - 1 = ((i : Nat) : Int)) := by
            intro h; apply hik; apply Fin.ext; omega
          rw [if_neg this, if_neg hik]
      simp only [heq, Finset.sum_ite_eq, Finset.mem_univ, if_true]
    simp only [originCount_cons, Finset.sum_add_distrib, hone, List.length_cons]
    rw [ih (fun q hq => hv q (List.mem_cons_of_mem _ hq))]
    push_cast; omega

theorem inv_unloaded (s : State) (h : Inv s) :
    Inv (unloadedState s (leaving s.elevator.current_floor s.passengers.onElevator)
      (staying s.elevator.current_floor s.passengers.onElevator)) := by
  have hu := unitSum_leaving_staying s.elevator.current_floor s.passengers.onElevator
  have hw := weightSum_leaving_staying s.elevator.current_floor s.passengers.onElevator
  have hu0 := unitSum_nonneg (leaving s.elevator.current_floor s.passengers.onElevator)
  have hw0 := weightSum_nonneg (leaving s.elevator.current_floor s.passengers.onElevator)
  have ho := h.occupancy_eq
  have hwt := h.weight_eq
  have hol := h.occupancy_le
  have hwl := h.weight_le
  exact
    { cur_range := h.cur_range
      next_range := h.next_range
      next_adjacent := h.next_adjacent
      waiting_valid := h.waiting_valid
      aboard_valid := by
        intro p hp
        exact h.aboard_valid p (List.mem_of_mem_filter hp)
      occupancy_eq := by simp only [unloadedState]; omega
      weight_eq := by simp only [unloadedState]; omega
      occupancy_le := by simp only [unloadedState]; omega
      weight_le := by simp only [unloadedState]; omega
      stopping_not_started := h.stopping_not_started
      serviced_eq := by
        simp only [unloadedState, Finset.sum_add_distrib]
        rw [sum_originCount, h.serviced_eq]
        intro p hp
        exact (h.aboard_valid p (List.mem_of_mem_filter hp)).2.1 }

theorem inv_loaded (s : State) (h : Inv s) :
    Inv (loadedState s
      (boarding s.elevator.current_floor s.elevator.passengers s.elevator.weight
        s.passengers.waiting)
      (remaining s.elevator.current_floor s.elevator.passengers s.elevator.weight
        s.passengers.waiting)) := by
  have hb := boarding_within_limits s.elevator.current_floor s.passengers.waiting
    s.elevator.passengers s.elevator.weight h.occupancy_le h.weight_le
  have ho := h.occupancy_eq
  have hwt := h.weight_eq
  exact
    { cur_range := h.cur_range
      next_range := h.next_range
      next_adjacent := h.next_adjacent
      waiting_valid := by
        intro p hp
        exact h.waiting_valid p (mem_remaining _ _ _ _ p hp)
      aboard_valid := by
        intro p hp
        simp only [loadedState, List.mem_append] at hp
        rcases hp with hp | hp
        · exact h.aboard_valid p hp
        · exact h.waiting_valid p (mem_boarding _ _ _ _ p hp).1
      occupancy_eq := by simp only [loadedState, unitSum_append]; omega
      weight_eq := by simp only [loadedState, weightSum_append]; omega
      occupancy_le := hb.1
      weight_le := hb.2
      stopping_not_started := h.stopping_not_started
      serviced_eq := h.serviced_eq }

theorem inv_offline (s : State) (h : Inv s) :
    Inv { s with elevator := { s.elevator with state := 0, deactiving := 0 } } where
  cur_range := h.cur_range
  next_range := h.next_range
  next_adjacent := h.next_adjacent
  waiting_valid := h.waiting_valid
  aboard_valid := h.aboard_valid
  occupancy_eq := h.occupancy_eq
  weight_eq := h.weight_eq
  occupancy_le := h.occupancy_le
  weight_le := h.weight_le
  stopping_not_started := by intro hh; simp at hh
  serviced_eq := h.serviced_eq

theorem inv_set_state (s : State) (v : Int) (h : Inv s) :
    Inv { s with elevator := { s.elevator with state := v } } :=
  h.of_same rfl rfl rfl rfl rfl rfl rfl rfl

/-- With the invariant, a scheduler tick makes no out-of-range array access
and keeps the invariant. -/
theorem inv_tick (s : State) (h : Inv s) :
    ∃ s1, thread_run_body s = some s1 ∧ Inv s1 := by
  have hu := unloadPassengers_eq s (fun p hp _ => (h.aboard_valid p hp).2.1)
  have h1 := inv_unloaded s h
  have hl := loadPassengers_eq _ (fun _ => h1.cur_range)
  have h2 := inv_loaded _ h1
  unfold thread_run_body
  rw [hu]
  simp only
  by_cases hq : s.passengers.waiting ≠ [] ∨ s.passengers.onElevator ≠ []
  · rw [if_pos hq]
    split_ifs
    all_goals first
      | rw [hl]
      | skip
    all_goals simp only
    all_goals split_ifs
    all_goals first
      | exact ⟨_, rfl, inv_move _ (inv_set_state _ _ h2)⟩
      | exact ⟨_, rfl, inv_move _ (inv_set_state _ _ h1)⟩
      | exact ⟨_, rfl, inv_move _ h2⟩
      | exact ⟨_, rfl, inv_move _ h1⟩
      | exact ⟨_, rfl, inv_offline _ (inv_set_state _ _ h2)⟩
      | exact ⟨_, rfl, inv_offline _ (inv_set_state _ _ h1)⟩
      | exact ⟨_, rfl, inv_offline _ h2⟩
      | exact ⟨_, rfl, inv_offline _ h1⟩
      | exact ⟨_, rfl, inv_set_state _ _ h2⟩
      | exact ⟨_, rfl, inv_set_state _ _ h1⟩
  · rw [if_neg hq]
    split_ifs
    · exact ⟨_, rfl, inv_set_state _ _ h⟩
    · exact ⟨_, rfl, inv_set_state _ _ h⟩

theorem reachable_inv (s : State) (h : Reachable s) : Inv s := by
  induction h with
  | setup => exact inv_setup
  | start s _ ih => exact inv_start s ih
  | request lock allocated s s1 t a b r _ hr ih =>
    exact inv_request lock allocated s s1 t a b r ih hr
  | stop lock s _ ih => exact inv_stop lock s ih
  | tick s s1 _ ht ih =>
    obtain ⟨s2, h2, hi⟩ := inv_tick s ih
    rw [h2] at ht
    cases ht
    exact hi

theorem reachable_ticks (n : Nat) :
    ∀ s s1 : State, Reachable s → ticks n s = some s1 → Reachable s1 := by
  induction n with
  | zero =>
    intro s s1 h ht
    simp only [ticks, Option.some.injEq] at ht
    rw [← ht]; exact h
  | succ n ih =>
    intro s s1 h ht
    obtain ⟨s2, h2, _⟩ := inv_tick s (reachable_inv s h)
    simp only [ticks, h2] at ht
    exact ih s2 s1 (Reachable.tick s s2 h h2) ht

theorem reachable_afterTicks (n : Nat) (s : State) (h : Reachable s) :
    Reachable (afterTicks n s) := by
  unfold afterTicks
  cases ht : ticks n s with
  | none => exact h
  | some s1 => exact reachable_ticks n s s1 h ht

theorem reachable_justStarted : Reachable justStarted :=
  Reachable.start _ Reachable.setup

theorem reachable_requested (s : State) (passenger_type start_floor destination_floor : Int)
    (h : Reachable s) :
    Reachable (requested s passenger_type start_floor destination_floor) := by
  unfold requested
  cases hr : issue_request 0 true s passenger_type start_floor destination_floor with
  | none => exact h
  | some r =>
    obtain ⟨s1, v⟩ := r
    exact Reachable.request 0 true s s1 passenger_type start_floor destination_floor v h hr

theorem reachable_adultRequested : Reachable adultRequested :=
  reachable_requested _ 1 1 5 reachable_justStarted

theorem reachable_twoRequested : Reachable twoRequested :=
  reachable_requested _ 2 3 10 (reachable_requested _ 4 2 1 reachable_justStarted)

theorem issue_request_not_started (lock : Int) (allocated : Bool) (s : State)
    (passenger_type start_floor destination_floor : Int) (h : s.elevator.started = 0) :
    issue_request lock allocated s passenger_type start_floor destination_floor =
      some (s, 1) := by
  simp [issue_request, h]

theorem unstarted_idle (s : State) (h : Unstarted s) :
    s.elevator.started = 0 ∧ s.passengers.waiting = [] ∧ s.passengers.onElevator = [] ∧
      ∀ i : Fin FLOORS, s.waiting_on_floor i = 0 := by
  induction h with
  | setup => exact ⟨rfl, rfl, rfl, fun _ => rfl⟩
  | request lock allocated s s1 t a b r _ hr ih =>
    rw [issue_request_not_started lock allocated s t a b ih.1] at hr
    cases hr
    exact ih
  | stop lock s _ ih =>
    have : stop_elevator lock s = (s, 1) := by simp [stop_elevator, ih.1]
    rw [this]; exact ih
  | tick s s1 _ ht ih =>
    obtain ⟨h1, h2, h3, h4⟩ := ih
    simp only [thread_run_body, h1, h2, h3, ne_eq, not_true_eq_false, or_self, if_false,
      Option.some.injEq] at ht
    rw [← ht]
    exact ⟨rfl, h2, h3, h4⟩

theorem boarding_sublist (cur : Int) (ps : List Passenger) :
    ∀ (occ wt : Int), List.Sublist (boarding cur occ wt ps) ps := by
  induction ps with
  | nil => intro occ wt; simp [boarding]
  | cons p ps ih =>
    intro occ wt
    by_cases hp : p.start = cur ∧ fits occ wt p
    · simp only [boarding, hp, and_self, if_true]
      exact (ih _ _).cons₂ p
    · simp only [boarding, hp, if_false]
      exact (ih _ _).cons p

theorem remaining_sublist (cur : Int) (ps : List Passenger) :
    ∀ (occ wt : Int), List.Sublist (remaining cur occ wt ps) ps := by
  induction ps with
  | nil => intro occ wt; simp [remaining]
  | cons p ps ih =>
    intro occ wt
    by_cases hp : p.start = cur ∧ fits occ wt p
    · simp only [remaining, hp, and_self, if_true]
      exact (ih _ _).cons p
    · simp only [remaining, hp, if_false]
      exact (ih _ _).cons₂ p

theorem boarding_remaining_perm (cur : Int) (ps : List Passenger) :
    ∀ (occ wt : Int), List.Perm (boarding cur occ wt ps ++ remaining cur occ wt ps) ps := by
  induction ps with
  | nil => intro occ wt; simp [boarding, remaining]
  | cons p ps ih =>
    intro occ wt
    by_cases hp : p.start = cur ∧ fits occ wt p
    · simp only [boarding, remaining, hp, and_self, if_true, List.cons_append]
      exact List.Perm.cons p (ih _ _)
    · simp only [boarding, remaining, hp, if_false]
      exact List.perm_middle.trans (List.Perm.cons p (ih _ _))

/-! ## The properties of the specification -/

/-- C1 (capacity invariant): in every state reachable from `setup_elevator`
by `start_elevator`, `issue_request` with any arguments, `stop_elevator`
and scheduler ticks, the occupancy lies between 0 and `MAX_PASSENGERS`
and the weight load between 0 and `MAX_WEIGHT`. -/
theorem capacity_invariant (s : State) (h : Reachable s) :
    (0 ≤ s.elevator.passengers ∧ s.elevator.passengers ≤ MAX_PASSENGERS) ∧
      (0 ≤ s.elevator.weight ∧ s.elevator.weight ≤ MAX_WEIGHT) := by
  have hi := reachable_inv s h
  refine ⟨⟨?_, hi.occupancy_le⟩, ?_, hi.weight_le⟩
  · rw [hi.occupancy_eq]; exact unitSum_nonneg _
  · rw [hi.weight_eq]; exact weightSum_nonneg _

/-- Witness of C1: the state three ticks after a bellhop and a child have
made their requests, with both aboard. -/
theorem capacity_invariant_witness :
    (0 ≤ (afterTicks 3 twoRequested).elevator.passengers ∧
        (afterTicks 3 twoRequested).elevator.passengers ≤ MAX_PASSENGERS) ∧
      (0 ≤ (afterTicks 3 twoRequested).elevator.weight ∧
        (afterTicks 3 twoRequested).elevator.weight ≤ MAX_WEIGHT) :=
  capacity_invariant (afterTicks 3 twoRequested)
    (reachable_afterTicks 3 twoRequested reachable_twoRequested)

/-- C2 (floor-range invariant): in every state reachable from
`setup_elevator` by the three system calls and scheduler ticks, the current
floor and the next floor both lie between 1 and `FLOORS`. -/
theorem floor_range_invariant (s : State) (h : Reachable s) :
    (1 ≤ s.elevator.current_floor ∧ s.elevator.current_floor ≤ (FLOORS : Int)) ∧
      (1 ≤ s.elevator.next_floor ∧ s.elevator.next_floor ≤ (FLOORS : Int)) :=
  ⟨(reachable_inv s h).cur_range, (reachable_inv s h).next_range⟩

/-- Witness of C2: the state nine ticks after the requests of the bellhop and
the child, when the elevator has gone up to the top floor. -/
theorem floor_range_invariant_witness :
    (1 ≤ (afterTicks 9 twoRequested).elevator.current_floor ∧
        (afterTicks 9 twoRequested).elevator.current_floor ≤ (FLOORS : Int)) ∧
      (1 ≤ (afterTicks 9 twoRequested).elevator.next_floor ∧
        (afterTicks 9 twoRequested).elevator.next_floor ≤ (FLOORS : Int)) :=
  floor_range_invariant (afterTicks 9 twoRequested)
    (reachable_afterTicks 9 twoRequested reachable_twoRequested)

/-- Counterexample to C3: the elevator is started and not stopping and the
arguments are valid, but the wait for the lock is interrupted
(`mutex_lock_interruptible` returns -4): `issue_request` returns 0 and the
waiting queue and the waiting counter of floor 1 are as before, no record
is appended. -/
theorem issue_request_interrupted_enqueues_nothing :
    justStarted.elevator.started ≠ 0 ∧ justStarted.elevator.deactiving = 0 ∧
    justStarted.passengers.waiting = [] ∧ justStarted.waiting_on_floor 0 = 0 ∧
    (issue_request (-4) true justStarted 1 1 5).map
        (fun r => (r.2, r.1.passengers.waiting, r.1.waiting_on_floor 0)) =
      some (0, [], 0) := by
  decide

/-- C3 as amended (`issue_request` enqueues under the lock): with the
elevator started and not stopping, a passenger type in 1..4 and both floors
in 1..`FLOORS`: when the lock is acquired and `kmalloc` returns a record,
`issue_request` returns 0, appends the record (type, start, destination) at
the tail of the waiting queue, adds 1 to `waiting_on_floor[start_floor-1]`
and leaves the other waiting counters, the aboard queue, the elevator
fields and the serviced counters as they were; when the wait for the lock is
interrupted, it returns 0 and leaves the whole state as it was. -/
theorem issue_request_enqueues (lock : Int) (s : State)
    (passenger_type start_floor destination_floor : Int)
    (hstarted : s.elevator.started ≠ 0) (hstopping : s.elevator.deactiving = 0)
    (htype : 1 ≤ passenger_type ∧ passenger_type ≤ 4)
    (hstart : 1 ≤ start_floor ∧ start_floor ≤ (FLOORS : Int))
    (hdest : 1 ≤ destination_floor ∧ destination_floor ≤ (FLOORS : Int)) :
    (lock = 0 →
      ∃ s1 : State,
        issue_request lock true s passenger_type start_floor destination_floor =
          some (s1, 0) ∧
        s1.passengers.waiting =
          s.passengers.waiting ++ [⟨passenger_type, start_floor, destination_floor⟩] ∧
        (∀ i : Fin FLOORS,
          s1.waiting_on_floor i =
            if ((i : Nat) : Int) = start_floor - 1 then s.waiting_on_floor i + 1
            else s.waiting_on_floor i) ∧
        s1.passengers.onElevator = s.passengers.onElevator ∧
        s1.elevator = s.elevator ∧
        s1.passengers.serviced = s.passengers.serviced ∧
        s1.serviced_on_floor = s.serviced_on_floor) ∧
    (lock ≠ 0 →
      ∀ allocated : Bool,
        issue_request lock allocated s passenger_type start_floor destination_floor =
          some (s, 0)) := by
  have h1 : ¬ (passenger_type < 1 ∨ passenger_type > 4) := by omega
  have h2 : ¬ (start_floor < 1 ∨ start_floor > (FLOORS : Int)) := by omega
  have h3 : ¬ (destination_floor < 1 ∨ destination_floor > (FLOORS : Int)) := by omega
  constructor
  · intro hl
    simp only [issue_request, hstarted, hstopping, hl, h1, h2, h3, if_false, dite_false,
      if_true]
    refine ⟨_, rfl, rfl, ?_, rfl, rfl, rfl, rfl⟩
    intro i
    simp only
    rw [Function.update_apply]
    have hiff : (i = ⟨(start_floor - 1).toNat, by simp only [FLOORS] at hstart ⊢; omega⟩) ↔
        ((i : Nat) : Int) = start_floor - 1 := by
      rw [Fin.ext_iff]; simp only; omega
    by_cases hi : ((i : Nat) : Int) = start_floor - 1
    · rw [if_pos (hiff.2 hi), if_pos hi, ← hiff.2 hi]
    · rw [if_neg (fun h => hi (hiff.1 h)), if_neg hi]
  · intro hl allocated
    simp only [issue_request, hstarted, hl, h1, h2, h3, if_false, dite_false]

/-- Witness of C3 as amended: a room-service request from floor 3 to floor 7
on the started elevator, with the lock acquired and with the wait
interrupted. -/
theorem issue_request_enqueues_witness :
    (∃ s1 : State,
      issue_request 0 true justStarted 3 3 7 = some (s1, 0) ∧
      s1.passengers.waiting = justStarted.passengers.waiting ++ [⟨3, 3, 7⟩] ∧
      (∀ i : Fin FLOORS,
        s1.waiting_on_floor i =
          if ((i : Nat) : Int) = 3 - 1 then justStarted.waiting_on_floor i + 1
          else justStarted.waiting_on_floor i) ∧
      s1.passengers.onElevator = justStarted.passengers.onElevator ∧
      s1.elevator = justStarted.elevator ∧
      s1.passengers.serviced = justStarted.passengers.serviced ∧
      s1.serviced_on_floor = justStarted.serviced_on_floor) ∧
    (∀ allocated : Bool, issue_request (-4) allocated justStarted 3 3 7 =
      some (justStarted, 0)) :=
  ⟨(issue_request_enqueues 0 justStarted 3 3 7 (by decide) (by decide) (by decide)
      (by decide) (by decide)).1 rfl,
    (issue_request_enqueues (-4) justStarted 3 3 7 (by decide) (by decide) (by decide)
      (by decide) (by decide)).2 (by decide)⟩

/-- C4 (`issue_request` rejects): if the elevator is not started, or the
passenger type is outside 1..4, or a floor is outside 1..`FLOORS`, then
`issue_request` returns 1 and the state is unchanged, whatever becomes of
the lock and of the allocation, which are not reached; in particular, in a
state reached without any `start_elevator` the request fails and every
waiting counter is still 0. -/
theorem issue_request_rejects (lock : Int) (allocated : Bool) (s : State)
    (passenger_type start_floor destination_floor : Int) :
    (s.elevator.started = 0 ∨ (passenger_type < 1 ∨ passenger_type > 4) ∨
        (start_floor < 1 ∨ start_floor > (FLOORS : Int)) ∨
        (destination_floor < 1 ∨ destination_floor > (FLOORS : Int)) →
      issue_request lock allocated s passenger_type start_floor destination_floor =
        some (s, 1)) ∧
    (Unstarted s →
      issue_request lock allocated s passenger_type start_floor destination_floor =
        some (s, 1) ∧
      ∀ i : Fin FLOORS, s.waiting_on_floor i = 0) := by
  have hmain : s.elevator.started = 0 ∨ (passenger_type < 1 ∨ passenger_type > 4) ∨
      (start_floor < 1 ∨ start_floor > (FLOORS : Int)) ∨
      (destination_floor < 1 ∨ destination_floor > (FLOORS : Int)) →
      issue_request lock allocated s passenger_type start_floor destination_floor =
        some (s, 1) := by
    intro hbad
    unfold issue_request
    by_cases h1 : s.elevator.started = 0
    · rw [if_pos h1]
    · rw [if_neg h1]
      by_cases h2 : passenger_type < 1 ∨ passenger_type > 4
      · rw [if_pos h2]
      · rw [if_neg h2]
        by_cases h3 : start_floor < 1 ∨ start_floor > (FLOORS : Int)
        · rw [dif_pos h3]
        · rw [dif_neg h3]
          by_cases h4 : destination_floor < 1 ∨ destination_floor > (FLOORS : Int)
          · rw [if_pos h4]
          · exfalso
            rcases hbad with h | h | h | h
            · exact h1 h
            · exact h2 h
            · exact h3 h
            · exact h4 h
  refine ⟨hmain, ?_⟩
  intro hu
  exact ⟨hmain (Or.inl (unstarted_idle s hu).1), (unstarted_idle s hu).2.2.2⟩

/-- Witness of C4: a request with passenger type 5 on the started elevator,
and a valid adult request on the initial state, before any
`start_elevator`. -/
theorem issue_request_rejects_witness :
    issue_request 0 true justStarted 5 1 5 = some (justStarted, 1) ∧
    issue_request 0 true setup_elevator 1 1 5 = some (setup_elevator, 1) ∧
    ∀ i : Fin FLOORS, setup_elevator.waiting_on_floor i = 0 :=
  ⟨(issue_request_rejects 0 true justStarted 5 1 5).1 (by decide),
    (issue_request_rejects 0 true setup_elevator 1 1 5).2 Unstarted.setup⟩

/-- Counterexample to C5: after `start_elevator` and a successful
`stop_elevator` the stopping flag is set, and a valid request is answered
with 1, not 0. -/
theorem issue_request_after_stop_fails :
    (stop_elevator 0 justStarted).2 = 0 ∧
    (stop_elevator 0 justStarted).1.elevator.deactiving = 1 ∧
    (issue_request 0 true (stop_elevator 0 justStarted).1 1 1 5).map Prod.snd = some 1 ∧
    ¬ (issue_request 0 true (stop_elevator 0 justStarted).1 1 1 5).map Prod.snd = some 0 := by
  decide

/-- C5 as amended (no admission while draining): in every state in which a
stop is in progress (`deactiving` set), `issue_request` with valid arguments
enqueues nothing and leaves the whole state unchanged, with the lock
acquired or not; it returns 1 when `started` is 0, which is the case in
every reachable state with a stop in progress and so right after a
successful `stop_elevator`, and it returns 0 only when `started` is set. -/
theorem issue_request_while_stopping (lock : Int) (allocated : Bool) (s : State)
    (passenger_type start_floor destination_floor : Int)
    (hstopping : s.elevator.deactiving ≠ 0)
    (htype : 1 ≤ passenger_type ∧ passenger_type ≤ 4)
    (hstart : 1 ≤ start_floor ∧ start_floor ≤ (FLOORS : Int))
    (hdest : 1 ≤ destination_floor ∧ destination_floor ≤ (FLOORS : Int)) :
    (∃ result : Int,
      issue_request lock allocated s passenger_type start_floor destination_floor =
        some (s, result) ∧
      (s.elevator.started = 0 → result = 1) ∧
      (s.elevator.started ≠ 0 → result = 0)) ∧
    (Reachable s → s.elevator.started = 0) := by
  have h1 : ¬ (passenger_type < 1 ∨ passenger_type > 4) := by omega
  have h2 : ¬ (start_floor < 1 ∨ start_floor > (FLOORS : Int)) := by omega
  have h3 : ¬ (destination_floor < 1 ∨ destination_floor > (FLOORS : Int)) := by omega
  refine ⟨?_, ?_⟩
  · by_cases hs : s.elevator.started = 0
    · exact ⟨1, issue_request_not_started lock allocated s _ _ _ hs, fun _ => rfl,
        fun h => absurd hs h⟩
    · refine ⟨0, ?_, fun h => absurd h hs, fun _ => rfl⟩
      by_cases hl : lock = 0
      · simp only [issue_request, hs, hstopping, hl, h1, h2, h3, if_false, dite_false,
          if_true]
      · simp only [issue_request, hs, hl, h1, h2, h3, if_false, dite_false]
  · intro hr
    exact (reachable_inv s hr).stopping_not_started hstopping

/-- Witness of C5 as amended: the state right after a successful
`stop_elevator`. -/
theorem issue_request_while_stopping_witness :
    (∃ result : Int,
      issue_request 0 true (stop_elevator 0 justStarted).1 1 1 5 =
        some ((stop_elevator 0 justStarted).1, result) ∧
      ((stop_elevator 0 justStarted).1.elevator.started = 0 → result = 1) ∧
      ((stop_elevator 0 justStarted).1.elevator.started ≠ 0 → result = 0)) ∧
    (Reachable (stop_elevator 0 justStarted).1 →
      (stop_elevator 0 justStarted).1.elevator.started = 0) :=
  issue_request_while_stopping 0 true (stop_elevator 0 justStarted).1 1 1 5 (by decide)
    (by decide) (by decide) (by decide)

/-- Counterexample to C6: the elevator is started and not stopping and an
adult is waiting, but the wait for the lock is interrupted
(`mutex_lock_interruptible` returns -4): `stop_elevator` returns 0 and the
adult is still in the waiting queue. -/
theorem stop_elevator_interrupted_keeps_queue :
    adultRequested.elevator.started ≠ 0 ∧ adultRequested.elevator.deactiving = 0 ∧
    (stop_elevator (-4) adultRequested).2 = 0 ∧
    (stop_elevator (-4) adultRequested).1.passengers.waiting = [⟨1, 1, 5⟩] ∧
    ¬ (stop_elevator (-4) adultRequested).1.passengers.waiting = [] := by
  decide

/-- C6 as amended (`stop_elevator` contract under the lock): if the elevator
is not started or is already stopping, `stop_elevator` returns 1 and changes
nothing, with the lock acquired or not; otherwise, when the lock is
acquired, it returns 0, sets `deactiving` to 1 and `started` to 0, empties
the waiting queue, zeroes every waiting counter, and leaves the aboard
queue, the occupancy, the weight, the floors, the motion state and the
serviced counters as they were. -/
theorem stop_elevator_contract (lock : Int) (s : State) :
    (s.elevator.started = 0 ∨ s.elevator.deactiving ≠ 0 → stop_elevator lock s = (s, 1)) ∧
    (s.elevator.started ≠ 0 ∧ s.elevator.deactiving = 0 → lock = 0 →
      (stop_elevator lock s).2 = 0 ∧
      (stop_elevator lock s).1.elevator.deactiving = 1 ∧
      (stop_elevator lock s).1.elevator.started = 0 ∧
      (stop_elevator lock s).1.passengers.waiting = [] ∧
      (∀ i : Fin FLOORS, (stop_elevator lock s).1.waiting_on_floor i = 0) ∧
      (stop_elevator lock s).1.passengers.onElevator = s.passengers.onElevator ∧
      (stop_elevator lock s).1.elevator.passengers = s.elevator.passengers ∧
      (stop_elevator lock s).1.elevator.weight = s.elevator.weight ∧
      (stop_elevator lock s).1.elevator.current_floor = s.elevator.current_floor ∧
      (stop_elevator lock s).1.elevator.next_floor = s.elevator.next_floor ∧
      (stop_elevator lock s).1.elevator.state = s.elevator.state ∧
      (stop_elevator lock s).1.passengers.serviced = s.passengers.serviced ∧
      (stop_elevator lock s).1.serviced_on_floor = s.serviced_on_floor) := by
  constructor
  · intro h
    unfold stop_elevator
    by_cases h1 : s.elevator.started = 0
    · rw [if_pos h1]
    · rw [if_neg h1]
      by_cases h2 : s.elevator.deactiving ≠ 0
      · rw [if_pos h2]
      · exfalso
        rcases h with h | h
        · exact h1 h
        · exact h2 h
  · intro h hl
    simp only [stop_elevator, h.1, h.2, hl, if_false, if_true, ne_eq, not_true_eq_false]
    exact ⟨trivial, trivial, trivial, trivial, fun _ => trivial, trivial, trivial, trivial,
      trivial, trivial, trivial, trivial, trivial⟩

/-- Witness of C6 as amended: `stop_elevator` on the initial state, which is
not started, and with the lock acquired on the started elevator with the
adult waiting. -/
theorem stop_elevator_contract_witness :
    stop_elevator 0 setup_elevator = (setup_elevator, 1) ∧
    ((stop_elevator 0 adultRequested).2 = 0 ∧
      (stop_elevator 0 adultRequested).1.elevator.deactiving = 1 ∧
      (stop_elevator 0 adultRequested).1.elevator.started = 0 ∧
      (stop_elevator 0 adultRequested).1.passengers.waiting = [] ∧
      (∀ i : Fin FLOORS, (stop_elevator 0 adultRequested).1.waiting_on_floor i = 0) ∧
      (stop_elevator 0 adultRequested).1.passengers.onElevator =
        adultRequested.passengers.onElevator ∧
      (stop_elevator 0 adultRequested).1.elevator.passengers =
        adultRequested.elevator.passengers ∧
      (stop_elevator 0 adultRequested).1.elevator.weight = adultRequested.elevator.weight ∧
      (stop_elevator 0 adultRequested).1.elevator.current_floor =
        adultRequested.elevator.current_floor ∧
      (stop_elevator 0 adultRequested).1.elevator.next_floor =
        adultRequested.elevator.next_floor ∧
      (stop_elevator 0 adultRequested).1.elevator.state = adultRequested.elevator.state ∧
      (stop_elevator 0 adultRequested).1.passengers.serviced =
        adultRequested.passengers.serviced ∧
      (stop_elevator 0 adultRequested).1.serviced_on_floor =
        adultRequested.serviced_on_floor) :=
  ⟨(stop_elevator_contract 0 setup_elevator).1 (by decide),
    (stop_elevator_contract 0 adultRequested).2 (by decide) rfl⟩

/-- C7 (`start_elevator` contract): if the elevator is already started,
`start_elevator` returns 1 and changes nothing; otherwise it returns 0, sets
`started` to 1 and `deactiving` to 0, and leaves both queues, the serviced
counter, the per-floor counters, the occupancy, the weight, the floors and
the motion state as they were. -/
theorem start_elevator_contract (s : State) :
    (s.elevator.started ≠ 0 → start_elevator s = (s, 1)) ∧
    (s.elevator.started = 0 →
      (start_elevator s).2 = 0 ∧
      (start_elevator s).1.elevator.started = 1 ∧
      (start_elevator s).1.elevator.deactiving = 0 ∧
      (start_elevator s).1.passengers = s.passengers ∧
      (start_elevator s).1.waiting_on_floor = s.waiting_on_floor ∧
      (start_elevator s).1.serviced_on_floor = s.serviced_on_floor ∧
      (start_elevator s).1.elevator.passengers = s.elevator.passengers ∧
      (start_elevator s).1.elevator.weight = s.elevator.weight ∧
      (start_elevator s).1.elevator.current_floor = s.elevator.current_floor ∧
      (start_elevator s).1.elevator.next_floor = s.elevator.next_floor ∧
      (start_elevator s).1.elevator.state = s.elevator.state) := by
  constructor
  · intro h
    simp only [start_elevator, h, ne_eq, not_false_eq_true, if_true]
  · intro h
    simp only [start_elevator, h, ne_eq, not_true_eq_false, if_false]
    exact ⟨trivial, trivial, trivial, trivial, trivial, trivial, trivial, trivial, trivial,
      trivial, trivial⟩

/-- Witness of C7: `start_elevator` on the started elevator and on the
initial state. -/
theorem start_elevator_contract_witness :
    start_elevator justStarted = (justStarted, 1) ∧
    ((start_elevator setup_elevator).2 = 0 ∧
      (start_elevator setup_elevator).1.elevator.started = 1 ∧
      (start_elevator setup_elevator).1.elevator.deactiving = 0 ∧
      (start_elevator setup_elevator).1.passengers = setup_elevator.passengers ∧
      (start_elevator setup_elevator).1.waiting_on_floor = setup_elevator.waiting_on_floor ∧
      (start_elevator setup_elevator).1.serviced_on_floor =
        setup_elevator.serviced_on_floor ∧
      (start_elevator setup_elevator).1.elevator.passengers =
        setup_elevator.elevator.passengers ∧
      (start_elevator setup_elevator).1.elevator.weight = setup_elevator.elevator.weight ∧
      (start_elevator setup_elevator).1.elevator.current_floor =
        setup_elevator.elevator.current_floor ∧
      (start_elevator setup_elevator).1.elevator.next_floor =
        setup_elevator.elevator.next_floor ∧
      (start_elevator setup_elevator).1.elevator.state = setup_elevator.elevator.state) :=
  ⟨(start_elevator_contract justStarted).1 (by decide),
    (start_elevator_contract setup_elevator).2 (by decide)⟩

/-- C8 (`unloadPassengers` functional correctness): when every aboard
passenger due to leave has its origin inside the building (so that the
tally index is inside `serviced_on_floor`), `unloadPassengers` returns, and
afterwards the aboard queue is the old one without the passengers whose
destination is the current floor, the others in their order; occupancy
and weight have gone down by the summed units and weights of the removed
passengers; `serviced` has gone up by their number;
`serviced_on_floor[i]` has gone up by the number of removed passengers whose
origin is floor `i + 1`; the waiting queue, the waiting counters, the floors,
the motion state and the flags are unchanged; and the result is 1 if a
passenger was removed and 0 if none was. -/
theorem unloadPassengers_correct (s : State)
    (hv : ∀ p ∈ s.passengers.onElevator, p.destination = s.elevator.current_floor →
      1 ≤ p.start ∧ p.start ≤ (FLOORS : Int)) :
    ∃ (s1 : State) (unloaded : Int),
      unloadPassengers s = some (s1, unloaded) ∧
      s1.passengers.onElevator =
        s.passengers.onElevator.filter (fun p => ¬ p.destination = s.elevator.current_floor) ∧
      s1.elevator.passengers = s.elevator.passengers -
        unitSum (s.passengers.onElevator.filter
          (fun p => p.destination = s.elevator.current_floor)) ∧
      s1.elevator.weight = s.elevator.weight -
        weightSum (s.passengers.onElevator.filter
          (fun p => p.destination = s.elevator.current_floor)) ∧
      s1.passengers.serviced = s.passengers.serviced +
        ((s.passengers.onElevator.filter
          (fun p => p.destination = s.elevator.current_floor)).length : Int) ∧
      (∀ i : Fin FLOORS, s1.serviced_on_floor i = s.serviced_on_floor i +
        originCount (s.passengers.onElevator.filter
          (fun p => p.destination = s.elevator.current_floor)) i) ∧
      s1.passengers.waiting = s.passengers.waiting ∧
      s1.waiting_on_floor = s.waiting_on_floor ∧
      s1.elevator.current_floor = s.elevator.current_floor ∧
      s1.elevator.next_floor = s.elevator.next_floor ∧
      s1.elevator.state = s.elevator.state ∧
      s1.elevator.deactiving = s.elevator.deactiving ∧
      s1.elevator.started = s.elevator.started ∧
      (unloaded = 1 ↔
        s.passengers.onElevator.filter
          (fun p => p.destination = s.elevator.current_floor) ≠ []) ∧
      (unloaded = 0 ↔
        s.passengers.onElevator.filter
          (fun p => p.destination = s.elevator.current_floor) = []) := by
  refine ⟨_, _, unloadPassengers_eq s hv, rfl, rfl, rfl, rfl, fun _ => rfl, rfl, rfl, rfl, rfl,
    rfl, rfl, rfl, ?_, ?_⟩
  · unfold leaving
    split_ifs with h <;> simp [h]
  · unfold leaving
    split_ifs with h <;> simp [h]

/-- Witness of C8: the elevator at floor 5 with the adult, bound for floor 5,
aboard. -/
theorem unloadPassengers_correct_witness :
    ∃ (s1 : State) (unloaded : Int),
      unloadPassengers adultArrived = some (s1, unloaded) ∧
      s1.passengers.onElevator =
        adultArrived.passengers.onElevator.filter
          (fun p => ¬ p.destination = adultArrived.elevator.current_floor) ∧
      s1.elevator.passengers = adultArrived.elevator.passengers -
        unitSum (adultArrived.passengers.onElevator.filter
          (fun p => p.destination = adultArrived.elevator.current_floor)) ∧
      s1.elevator.weight = adultArrived.elevator.weight -
        weightSum (adultArrived.passengers.onElevator.filter
          (fun p => p.destination = adultArrived.elevator.current_floor)) ∧
      s1.passengers.serviced = adultArrived.passengers.serviced +
        ((adultArrived.passengers.onElevator.filter
          (fun p => p.destination =
            adultArrived.elevator.current_floor)).length : Int) ∧
      (∀ i : Fin FLOORS,
        s1.serviced_on_floor i = adultArrived.serviced_on_floor i +
          originCount (adultArrived.passengers.onElevator.filter
            (fun p => p.destination =
              adultArrived.elevator.current_floor)) i) ∧
      s1.passengers.waiting = adultArrived.passengers.waiting ∧
      s1.waiting_on_floor = adultArrived.waiting_on_floor ∧
      s1.elevator.current_floor = adultArrived.elevator.current_floor ∧
      s1.elevator.next_floor = adultArrived.elevator.next_floor ∧
      s1.elevator.state = adultArrived.elevator.state ∧
      s1.elevator.deactiving = adultArrived.elevator.deactiving ∧
      s1.elevator.started = adultArrived.elevator.started ∧
      (unloaded = 1 ↔
        adultArrived.passengers.onElevator.filter
          (fun p => p.destination =
            adultArrived.elevator.current_floor) ≠ []) ∧
      (unloaded = 0 ↔
        adultArrived.passengers.onElevator.filter
          (fun p => p.destination =
            adultArrived.elevator.current_floor) = []) :=
  unloadPassengers_correct adultArrived (by decide)

/-- Counterexample to C9: the adult who asked for a ride from floor 1 to
floor 5 is unloaded at floor 5 in the fifth tick; `serviced` is then 1 but
`serviced_on_floor[4]`, the counter of the unload floor, is still 0, the
count having gone to `serviced_on_floor[0]`, the counter of the origin. -/
theorem serviced_tally_not_at_unload_floor :
    (ticks 4 adultRequested).map
        (fun s => (s.elevator.current_floor, s.passengers.onElevator, s.passengers.serviced,
          s.serviced_on_floor 4)) = some (5, [⟨1, 1, 5⟩], 0, 0) ∧
    (ticks 5 adultRequested).map
        (fun s => (s.elevator.current_floor, s.passengers.onElevator, s.passengers.serviced,
          s.serviced_on_floor 4)) = some (5, [], 1, 0) ∧
    ¬ (ticks 5 adultRequested).map (fun s => s.serviced_on_floor 4) = some 1 := by
  decide

/-- C9 as amended (the per-floor serviced tally is indexed by the origin):
when `unloadPassengers` removes passengers at the current floor,
`serviced_on_floor[i]` goes up by the number of removed passengers whose
origin is floor `i + 1`, once for each; in the scenario, five ticks after
the request of the adult from floor 1 to floor 5 the adult is delivered at floor
5, `serviced` is 1, `serviced_on_floor[0]` is 1 and `serviced_on_floor[4]`
is 0. -/
theorem serviced_tally_by_origin (s : State)
    (hv : ∀ p ∈ s.passengers.onElevator, p.destination = s.elevator.current_floor →
      1 ≤ p.start ∧ p.start ≤ (FLOORS : Int)) :
    (∃ (s1 : State) (unloaded : Int),
      unloadPassengers s = some (s1, unloaded) ∧
      ∀ i : Fin FLOORS, s1.serviced_on_floor i = s.serviced_on_floor i +
        ((s.passengers.onElevator.filter
          (fun p => p.destination = s.elevator.current_floor ∧
            p.start = ((i : Nat) : Int) + 1)).length : Int)) ∧
    (ticks 5 adultRequested).map
        (fun s => (s.elevator.current_floor, s.passengers.onElevator, s.passengers.serviced,
          s.serviced_on_floor 0, s.serviced_on_floor 4)) = some (5, [], 1, 1, 0) := by
  refine ⟨⟨_, _, unloadPassengers_eq s hv, ?_⟩, by decide⟩
  intro i
  simp only [unloadedState, originCount, leaving, List.filter_filter]
  congr 3
  apply List.filter_congr
  intro p _
  have hstart : p.start - 1 = ((i : Nat) : Int) ↔ p.start = ((i : Nat) : Int) + 1 := by omega
  simp only [hstart, Bool.and_comm, Bool.decide_and]

/-- Witness of C9 as amended: the elevator at floor 5 with the adult, bound
for floor 5, aboard. -/
theorem serviced_tally_by_origin_witness :
    (∃ (s1 : State) (unloaded : Int),
      unloadPassengers adultArrived = some (s1, unloaded) ∧
      ∀ i : Fin FLOORS, s1.serviced_on_floor i = adultArrived.serviced_on_floor i +
        ((adultArrived.passengers.onElevator.filter
          (fun p => p.destination = adultArrived.elevator.current_floor ∧
            p.start = ((i : Nat) : Int) + 1)).length : Int)) ∧
    (ticks 5 adultRequested).map
        (fun s => (s.elevator.current_floor, s.passengers.onElevator, s.passengers.serviced,
          s.serviced_on_floor 0, s.serviced_on_floor 4)) = some (5, [], 1, 1, 0) :=
  serviced_tally_by_origin adultArrived (by decide)

/-- C10 (`loadPassengers` functional correctness): with the current floor
inside the building (so that the tally index is inside `waiting_on_floor`),
`loadPassengers` returns, and the passengers it moves are those picked by
one scan of the waiting queue in order with a running load, a passenger
being picked when its origin is the current floor and it fits at that
moment; afterwards the waiting queue is the passengers not moved and the
aboard queue the old one followed by the moved ones, both in their original
order and together a rearrangement of the old waiting queue; occupancy and
weight have gone up by the summed units and weights of the moved passengers;
`waiting_on_floor[current_floor-1]` has gone down by their number; the
rest of the state is unchanged; and the result is 1 if a passenger was moved
and 0 if none was. -/
theorem loadPassengers_correct (s : State)
    (hc : 1 ≤ s.elevator.current_floor ∧ s.elevator.current_floor ≤ (FLOORS : Int)) :
    ∃ (s1 : State) (loaded : Int),
      loadPassengers s = some (s1, loaded) ∧
      s1.passengers.waiting = leftWaiting s ∧
      s1.passengers.onElevator = s.passengers.onElevator ++ boarded s ∧
      List.Sublist (boarded s) s.passengers.waiting ∧
      List.Sublist (leftWaiting s) s.passengers.waiting ∧
      List.Perm (boarded s ++ leftWaiting s) s.passengers.waiting ∧
      s1.elevator.passengers = s.elevator.passengers + unitSum (boarded s) ∧
      s1.elevator.weight = s.elevator.weight + weightSum (boarded s) ∧
      (∀ i : Fin FLOORS, s1.waiting_on_floor i =
        if ((i : Nat) : Int) = s.elevator.current_floor - 1 then
          s.waiting_on_floor i - ((boarded s).length : Int)
        else s.waiting_on_floor i) ∧
      s1.passengers.serviced = s.passengers.serviced ∧
      s1.serviced_on_floor = s.serviced_on_floor ∧
      s1.elevator.current_floor = s.elevator.current_floor ∧
      s1.elevator.next_floor = s.elevator.next_floor ∧
      s1.elevator.state = s.elevator.state ∧
      s1.elevator.deactiving = s.elevator.deactiving ∧
      s1.elevator.started = s.elevator.started ∧
      (loaded = 1 ↔ boarded s ≠ []) ∧
      (loaded = 0 ↔ boarded s = []) := by
  refine ⟨_, _, loadPassengers_eq s (fun _ => hc), rfl, rfl, boarding_sublist _ _ _ _,
    remaining_sublist _ _ _ _, boarding_remaining_perm _ _ _ _, rfl, rfl, fun _ => rfl, rfl,
    rfl, rfl, rfl, rfl, rfl, rfl, ?_, ?_⟩
  · unfold boarded
    split_ifs with h <;> simp [h]
  · unfold boarded
    split_ifs with h <;> simp [h]

/-- Witness of C10: the elevator at floor 1 with the adult waiting there. -/
theorem loadPassengers_correct_witness :
    ∃ (s1 : State) (loaded : Int),
      loadPassengers adultRequested = some (s1, loaded) ∧
      s1.passengers.waiting = leftWaiting adultRequested ∧
      s1.passengers.onElevator = adultRequested.passengers.onElevator ++ boarded adultRequested ∧
      List.Sublist (boarded adultRequested) adultRequested.passengers.waiting ∧
      List.Sublist (leftWaiting adultRequested) adultRequested.passengers.waiting ∧
      List.Perm (boarded adultRequested ++ leftWaiting adultRequested)
        adultRequested.passengers.waiting ∧
      s1.elevator.passengers = adultRequested.elevator.passengers +
        unitSum (boarded adultRequested) ∧
      s1.elevator.weight = adultRequested.elevator.weight + weightSum (boarded adultRequested) ∧
      (∀ i : Fin FLOORS, s1.waiting_on_floor i =
        if ((i : Nat) : Int) = adultRequested.elevator.current_floor - 1 then
          adultRequested.waiting_on_floor i - ((boarded adultRequested).length : Int)
        else adultRequested.waiting_on_floor i) ∧
      s1.passengers.serviced = adultRequested.passengers.serviced ∧
      s1.serviced_on_floor = adultRequested.serviced_on_floor ∧
      s1.elevator.current_floor = adultRequested.elevator.current_floor ∧
      s1.elevator.next_floor = adultRequested.elevator.next_floor ∧
      s1.elevator.state = adultRequested.elevator.state ∧
      s1.elevator.deactiving = adultRequested.elevator.deactiving ∧
      s1.elevator.started = adultRequested.elevator.started ∧
      (loaded = 1 ↔ boarded adultRequested ≠ []) ∧
      (loaded = 0 ↔ boarded adultRequested = []) :=
  loadPassengers_correct adultRequested (by decide)

theorem fits_mono (occ wt occ1 wt1 : Int) (p : Passenger) (h1 : occ ≤ occ1) (h2 : wt ≤ wt1)
    (h : ¬ fits occ wt p) : ¬ fits occ1 wt1 p := by
  unfold fits at h ⊢
  omega

theorem remaining_not_fits (cur : Int) (ps : List Passenger) :
    ∀ (occ wt : Int) (q : Passenger), q ∈ remaining cur occ wt ps → q.start = cur →
      ¬ fits (occ + unitSum (boarding cur occ wt ps)) (wt + weightSum (boarding cur occ wt ps))
        q := by
  induction ps with
  | nil => intro occ wt q h; simp [remaining] at h
  | cons p ps ih =>
    intro occ wt q h hq
    by_cases hp : p.start = cur ∧ fits occ wt p
    · simp only [remaining, hp, and_self, if_true] at h
      simp only [boarding, hp, and_self, if_true, unitSum_cons, weightSum_cons]
      have := ih _ _ q h hq
      rw [← add_assoc, ← add_assoc]
      exact this
    · simp only [remaining, hp, if_false, List.mem_cons] at h
      simp only [boarding, hp, if_false]
      have hu := unitSum_nonneg (boarding cur occ wt ps)
      have hw := weightSum_nonneg (boarding cur occ wt ps)
      rcases h with h | h
      · subst h
        exact fits_mono occ wt _ _ q (by omega) (by omega) (fun hf => hp ⟨hq, hf⟩)
      · exact ih _ _ q h hq

theorem boarding_nil_of_not_fits (cur occ wt : Int) (ps : List Passenger)
    (h : ∀ q ∈ ps, q.start = cur → ¬ fits occ wt q) :
    boarding cur occ wt ps = [] ∧ remaining cur occ wt ps = ps := by
  induction ps with
  | nil => simp [boarding, remaining]
  | cons p ps ih =>
    have hp : ¬ (p.start = cur ∧ fits occ wt p) :=
      fun hh => h p (List.mem_cons_self _ _) hh.1 hh.2
    have := ih (fun q hq => h q (List.mem_cons_of_mem _ hq))
    simp only [boarding, remaining, hp, if_false, this.1, this.2, and_self]

/-- C11 (loading is maximal and capped): with the current floor inside the
building, after `loadPassengers` every passenger still in the waiting queue
whose origin is the current floor does not fit the elevator as now loaded:
its units would push the occupancy above `MAX_PASSENGERS` or its weight
would push the weight above `MAX_WEIGHT`; and with an empty elevator at
floor 1 and eleven adults waiting at floor 1 for floor 2, one pass boards
ten of them (occupancy 10, weight 20) and the eleventh stays in the waiting
queue. -/
theorem loadPassengers_maximal (s : State)
    (hc : 1 ≤ s.elevator.current_floor ∧ s.elevator.current_floor ≤ (FLOORS : Int)) :
    (∃ (s1 : State) (loaded : Int),
      loadPassengers s = some (s1, loaded) ∧
      ∀ p ∈ s1.passengers.waiting, p.start = s1.elevator.current_floor →
        s1.elevator.passengers + getPassengerUnit p > MAX_PASSENGERS ∨
          s1.elevator.weight + getPassengerWeight p > MAX_WEIGHT) ∧
    (elevenAdults.elevator.current_floor = 1 ∧ elevenAdults.elevator.passengers = 0 ∧
      elevenAdults.elevator.weight = 0 ∧ elevenAdults.passengers.onElevator = [] ∧
      elevenAdults.passengers.waiting = List.replicate 11 ⟨1, 1, 2⟩ ∧
      (loadPassengers elevenAdults).map
          (fun r => (r.2, r.1.elevator.passengers, r.1.elevator.weight,
            r.1.passengers.onElevator, r.1.passengers.waiting)) =
        some (1, 10, 20, List.replicate 10 ⟨1, 1, 2⟩, [⟨1, 1, 2⟩])) := by
  refine ⟨⟨_, _, loadPassengers_eq s (fun _ => hc), ?_⟩, by decide⟩
  intro p hp hps
  have h := remaining_not_fits _ _ _ _ p hp hps
  unfold fits at h
  simp only [loadedState]
  omega

/-- Witness of C11: the eleven adults waiting at floor 1. -/
theorem loadPassengers_maximal_witness :
    (∃ (s1 : State) (loaded : Int),
      loadPassengers elevenAdults = some (s1, loaded) ∧
      ∀ p ∈ s1.passengers.waiting, p.start = s1.elevator.current_floor →
        s1.elevator.passengers + getPassengerUnit p > MAX_PASSENGERS ∨
          s1.elevator.weight + getPassengerWeight p > MAX_WEIGHT) ∧
    (elevenAdults.elevator.current_floor = 1 ∧ elevenAdults.elevator.passengers = 0 ∧
      elevenAdults.elevator.weight = 0 ∧ elevenAdults.passengers.onElevator = [] ∧
      elevenAdults.passengers.waiting = List.replicate 11 ⟨1, 1, 2⟩ ∧
      (loadPassengers elevenAdults).map
          (fun r => (r.2, r.1.elevator.passengers, r.1.elevator.weight,
            r.1.passengers.onElevator, r.1.passengers.waiting)) =
        some (1, 10, 20, List.replicate 10 ⟨1, 1, 2⟩, [⟨1, 1, 2⟩])) :=
  loadPassengers_maximal elevenAdults (by decide)

/-- C12 (loading is idempotent at a floor): with the current floor inside
the building, `loadPassengers` applied to the state it has just produced
returns 0 and leaves that state as it is, so that two passes in succession
give the same state as one. -/
theorem loadPassengers_idempotent (s : State)
    (hc : 1 ≤ s.elevator.current_floor ∧ s.elevator.current_floor ≤ (FLOORS : Int)) :
    ∃ (s1 : State) (loaded : Int),
      loadPassengers s = some (s1, loaded) ∧ loadPassengers s1 = some (s1, 0) := by
  refine ⟨_, _, loadPassengers_eq s (fun _ => hc), ?_⟩
  have hnf := remaining_not_fits s.elevator.current_floor s.passengers.waiting
    s.elevator.passengers s.elevator.weight
  have hb := boarding_nil_of_not_fits s.elevator.current_floor
    (s.elevator.passengers + unitSum (boarded s)) (s.elevator.weight + weightSum (boarded s))
    (leftWaiting s) (fun q hq hqs => hnf q hq hqs)
  show loadPassengers (loadedState s (boarded s) (leftWaiting s)) =
    some (loadedState s (boarded s) (leftWaiting s), 0)
  rw [loadPassengers_eq (loadedState s (boarded s) (leftWaiting s)) (fun _ => hc)]
  have h1 : boarding (loadedState s (boarded s) (leftWaiting s)).elevator.current_floor
      (loadedState s (boarded s) (leftWaiting s)).elevator.passengers
      (loadedState s (boarded s) (leftWaiting s)).elevator.weight
      (loadedState s (boarded s) (leftWaiting s)).passengers.waiting = [] := hb.1
  have h2 : remaining (loadedState s (boarded s) (leftWaiting s)).elevator.current_floor
      (loadedState s (boarded s) (leftWaiting s)).elevator.passengers
      (loadedState s (boarded s) (leftWaiting s)).elevator.weight
      (loadedState s (boarded s) (leftWaiting s)).passengers.waiting =
      (loadedState s (boarded s) (leftWaiting s)).passengers.waiting := hb.2
  rw [h1, h2, loadedState_nil]
  rfl

/-- Witness of C12: the eleven adults waiting at floor 1. -/
theorem loadPassengers_idempotent_witness :
    ∃ (s1 : State) (loaded : Int),
      loadPassengers elevenAdults = some (s1, loaded) ∧ loadPassengers s1 = some (s1, 0) :=
  loadPassengers_idempotent elevenAdults (by decide)

theorem originCount_eq_filter (ps : List Passenger) (i : Fin FLOORS) :
    originCount ps i =
      ((ps.filter (fun p => p.start = ((i : Nat) : Int) + 1)).length : Int) := by
  unfold originCount
  congr 2
  apply List.filter_congr
  intro p _
  have hstart : p.start - 1 = ((i : Nat) : Int) ↔ p.start = ((i : Nat) : Int) + 1 := by omega
  simp only [hstart]

theorem moved_state (s : State) :
    ((moveElevator (changeElevatorState s)).elevator.state = 3 ∨
      (moveElevator (changeElevatorState s)).elevator.state = 4) ∧
    (moveElevator (changeElevatorState s)).passengers = s.passengers := by
  by_cases hd : s.elevator.next_floor > s.elevator.current_floor
  · rw [move_up s hd]; exact ⟨Or.inl rfl, rfl⟩
  · rw [move_down s hd]; exact ⟨Or.inr rfl, rfl⟩

/-- C16 (offline only when empty): whenever a scheduler tick ends in state 0
(offline), both queues are empty at the end of that tick; a tick that ends
with a passenger still waiting or aboard ends in state 3 (up) or 4 (down);
and in every reachable state the tick does end. -/
theorem offline_only_when_empty (s : State) :
    (∀ s1 : State, thread_run_body s = some s1 →
      (s1.elevator.state = 0 →
        s1.passengers.waiting = [] ∧ s1.passengers.onElevator = []) ∧
      (s1.passengers.waiting ≠ [] ∨ s1.passengers.onElevator ≠ [] →
        s1.elevator.state = 3 ∨ s1.elevator.state = 4)) ∧
    (Reachable s → ∃ s1 : State, thread_run_body s = some s1) := by
  constructor
  · intro s1 ht
    have key : (s1.passengers.waiting = [] ∧ s1.passengers.onElevator = []) ∨
        ((s1.elevator.state = 3 ∨ s1.elevator.state = 4)) := by
      unfold thread_run_body at ht
      by_cases hq : s.passengers.waiting ≠ [] ∨ s.passengers.onElevator ≠ []
      · rw [if_pos hq] at ht
        cases hu : unloadPassengers s with
        | none => rw [hu] at ht; simp at ht
        | some r1 =>
          obtain ⟨t1, u⟩ := r1
          rw [hu] at ht
          simp only at ht
          have fin : ∀ (t2 : State) (l : Int),
              (if (if u ≠ 0 ∨ l ≠ 0 then
                    ({ t2 with elevator := { t2.elevator with state := 2 } } : State)
                  else t2).passengers.waiting ≠ [] ∨
                  (if u ≠ 0 ∨ l ≠ 0 then
                    ({ t2 with elevator := { t2.elevator with state := 2 } } : State)
                  else t2).passengers.onElevator ≠ [] then
                some (moveElevator (changeElevatorState
                  (if u ≠ 0 ∨ l ≠ 0 then
                    ({ t2 with elevator := { t2.elevator with state := 2 } } : State)
                  else t2)))
              else if (if u ≠ 0 ∨ l ≠ 0 then
                    ({ t2 with elevator := { t2.elevator with state := 2 } } : State)
                  else t2).elevator.deactiving ≠ 0 then
                some { (if u ≠ 0 ∨ l ≠ 0 then
                    ({ t2 with elevator := { t2.elevator with state := 2 } } : State)
                  else t2) with elevator := { (if u ≠ 0 ∨ l ≠ 0 then
                    ({ t2 with elevator := { t2.elevator with state := 2 } } : State)
                  else t2).elevator with state := 0, deactiving := 0 } }
              else some (if u ≠ 0 ∨ l ≠ 0 then
                    ({ t2 with elevator := { t2.elevator with state := 2 } } : State)
                  else t2)) = some s1 →
              (s1.passengers.waiting = [] ∧ s1.passengers.onElevator = []) ∨
                (s1.elevator.state = 3 ∨ s1.elevator.state = 4) := by
            intro t2 l hfin
            generalize (if u ≠ 0 ∨ l ≠ 0 then
                    ({ t2 with elevator := { t2.elevator with state := 2 } } : State)
                  else t2) = t3 at hfin
            split_ifs at hfin with h1 h2
            · simp only [Option.some.injEq] at hfin
              rw [← hfin]
              exact Or.inr (moved_state t3).1
            · simp only [Option.some.injEq] at hfin
              rw [← hfin]
              left
              simp only [ne_eq, not_or, not_not] at h1
              exact h1
            · simp only [Option.some.injEq] at hfin
              rw [← hfin]
              left
              simp only [ne_eq, not_or, not_not] at h1
              exact h1
          by_cases hg : t1.elevator.passengers ≠ MAX_PASSENGERS ∧
              t1.elevator.weight ≠ MAX_WEIGHT
          · rw [if_pos hg] at ht
            cases hl : loadPassengers t1 with
            | none => rw [hl] at ht; simp at ht
            | some r2 =>
              obtain ⟨t2, l⟩ := r2
              rw [hl] at ht
              exact fin t2 l ht
          · rw [if_neg hg] at ht
            exact fin t1 0 ht
      · rw [if_neg hq] at ht
        simp only [ne_eq, not_or, not_not] at hq
        split_ifs at ht
        · simp only [Option.some.injEq] at ht
          rw [← ht]; exact Or.inl hq
        · simp only [Option.some.injEq] at ht
          rw [← ht]; exact Or.inl hq
    constructor
    · intro h0
      rcases key with hk | hk
      · exact hk
      · rcases hk with hk | hk <;> rw [hk] at h0 <;> simp at h0
    · intro hne
      rcases key with hk | hk
      · rcases hne with hne | hne
        · exact absurd hk.1 hne
        · exact absurd hk.2 hne
      · exact hk
  · intro hr
    obtain ⟨s1, h1, _⟩ := inv_tick s (reachable_inv s hr)
    exact ⟨s1, h1⟩

/-- Witness of C16: the tick after the request of the adult ends with the
adult aboard, the tick on the initial state ends offline. -/
theorem offline_only_when_empty_witness :
    ((afterTicks 1 adultRequested).passengers.waiting ≠ [] ∨
        (afterTicks 1 adultRequested).passengers.onElevator ≠ [] →
      (afterTicks 1 adultRequested).elevator.state = 3 ∨
        (afterTicks 1 adultRequested).elevator.state = 4) ∧
    ((afterTicks 1 setup_elevator).elevator.state = 0 →
      (afterTicks 1 setup_elevator).passengers.waiting = [] ∧
        (afterTicks 1 setup_elevator).passengers.onElevator = []) :=
  ⟨((offline_only_when_empty adultRequested).1 (afterTicks 1 adultRequested) rfl).2,
    ((offline_only_when_empty setup_elevator).1 (afterTicks 1 setup_elevator) rfl).1⟩

/-- C17 (`moveElevator` follows the bounce rule): in state 3 (up) at floor
`c` the elevator goes to floor `c + 1` and the next floor becomes `c + 2`,
or `c` when `c + 1` is `FLOORS`; in state 4 (down) it goes to floor `c - 1`
and the next floor becomes `c - 2`, or `c` when `c - 1` is 1; in any other
state `moveElevator` changes nothing; it never touches anything but the two
floors; and `changeElevatorState` sets state 3 when the next floor is above
the current floor and state 4 otherwise, touching nothing else. -/
theorem moveElevator_bounce (s : State) :
    (s.elevator.state = 3 →
      (moveElevator s).elevator.current_floor = s.elevator.current_floor + 1 ∧
      (moveElevator s).elevator.next_floor =
        if s.elevator.current_floor + 1 = (FLOORS : Int) then s.elevator.current_floor
        else s.elevator.current_floor + 2) ∧
    (s.elevator.state = 4 →
      (moveElevator s).elevator.current_floor = s.elevator.current_floor - 1 ∧
      (moveElevator s).elevator.next_floor =
        if s.elevator.current_floor - 1 = 1 then s.elevator.current_floor
        else s.elevator.current_floor - 2) ∧
    (s.elevator.state ≠ 3 ∧ s.elevator.state ≠ 4 → moveElevator s = s) ∧
    ((moveElevator s).elevator.state = s.elevator.state ∧
      (moveElevator s).elevator.passengers = s.elevator.passengers ∧
      (moveElevator s).elevator.weight = s.elevator.weight ∧
      (moveElevator s).elevator.deactiving = s.elevator.deactiving ∧
      (moveElevator s).elevator.started = s.elevator.started ∧
      (moveElevator s).passengers = s.passengers ∧
      (moveElevator s).serviced_on_floor = s.serviced_on_floor ∧
      (moveElevator s).waiting_on_floor = s.waiting_on_floor) ∧
    ((changeElevatorState s).elevator.state =
        (if s.elevator.next_floor > s.elevator.current_floor then 3 else 4) ∧
      (changeElevatorState s).elevator.current_floor = s.elevator.current_floor ∧
      (changeElevatorState s).elevator.next_floor = s.elevator.next_floor ∧
      (changeElevatorState s).elevator.passengers = s.elevator.passengers ∧
      (changeElevatorState s).elevator.weight = s.elevator.weight ∧
      (changeElevatorState s).elevator.deactiving = s.elevator.deactiving ∧
      (changeElevatorState s).elevator.started = s.elevator.started ∧
      (changeElevatorState s).passengers = s.passengers ∧
      (changeElevatorState s).serviced_on_floor = s.serviced_on_floor ∧
      (changeElevatorState s).waiting_on_floor = s.waiting_on_floor) := by
  refine ⟨?_, ?_, ?_, ?_, ?_⟩
  · intro h
    simp only [moveElevator, h, if_true]
    norm_num
    split_ifs <;> omega
  · intro h
    by_cases hc : s.elevator.current_floor - 1 = 1
    · have h43 : ¬ (4 : Int) = 3 := by decide
      simp only [moveElevator, h, h43, hc, if_true, if_false]
      exact ⟨trivial, by omega⟩
    · have h43 : ¬ (4 : Int) = 3 := by decide
      simp only [moveElevator, h, h43, hc, if_true, if_false]
      exact ⟨trivial, by omega⟩
  · intro h
    simp only [moveElevator, h.1, h.2, if_false]
  · by_cases h3 : s.elevator.state = 3
    · simp [moveElevator, h3]
    · by_cases h4 : s.elevator.state = 4
      · simp [moveElevator, h3, h4]
      · simp [moveElevator, h3, h4]
  · unfold changeElevatorState
    split_ifs <;> exact ⟨rfl, rfl, rfl, rfl, rfl, rfl, rfl, rfl, rfl, rfl⟩

/-- Witness of C17: going up from floor 9 the elevator reaches the top floor
and the next floor is 9 again; going down from floor 2 it reaches floor 1
and the next floor is 2 again; offline it stays where it is. -/
theorem moveElevator_bounce_witness :
    ((moveElevator { setup_elevator with elevator :=
        { setup_elevator.elevator with state := 3, current_floor := 9, next_floor := 10 }
        }).elevator.current_floor = 9 + 1 ∧
      (moveElevator { setup_elevator with elevator :=
        { setup_elevator.elevator with state := 3, current_floor := 9, next_floor := 10 }
        }).elevator.next_floor = if (9 : Int) + 1 = (FLOORS : Int) then 9 else 9 + 2) ∧
    ((moveElevator { setup_elevator with elevator :=
        { setup_elevator.elevator with state := 4, current_floor := 2, next_floor := 1 }
        }).elevator.current_floor = 2 - 1 ∧
      (moveElevator { setup_elevator with elevator :=
        { setup_elevator.elevator with state := 4, current_floor := 2, next_floor := 1 }
        }).elevator.next_floor = if (2 : Int) - 1 = 1 then 2 else 2 - 2) ∧
    moveElevator setup_elevator = setup_elevator :=
  ⟨(moveElevator_bounce _).1 rfl, (moveElevator_bounce _).2.1 rfl,
    (moveElevator_bounce setup_elevator).2.2.1 (by decide)⟩

/-- C18 (load accounting invariant): in every state reachable from
`setup_elevator` by the three system calls and scheduler ticks, the
occupancy is the sum of `getPassengerUnit` over the aboard queue and the
weight is the sum of `getPassengerWeight` over the aboard queue, so that
with an empty aboard queue both are 0. -/
theorem load_accounting_invariant (s : State) (h : Reachable s) :
    s.elevator.passengers = (s.passengers.onElevator.map getPassengerUnit).sum ∧
    s.elevator.weight = (s.passengers.onElevator.map getPassengerWeight).sum ∧
    (s.passengers.onElevator = [] → s.elevator.passengers = 0 ∧ s.elevator.weight = 0) := by
  have hi := reachable_inv s h
  refine ⟨hi.occupancy_eq, hi.weight_eq, ?_⟩
  intro he
  rw [hi.occupancy_eq, hi.weight_eq, he]
  exact ⟨rfl, rfl⟩

/-- Witness of C18: the state four ticks after the requests of the bellhop and
the child, with both aboard. -/
theorem load_accounting_invariant_witness :
    (afterTicks 4 twoRequested).elevator.passengers =
      ((afterTicks 4 twoRequested).passengers.onElevator.map getPassengerUnit).sum ∧
    (afterTicks 4 twoRequested).elevator.weight =
      ((afterTicks 4 twoRequested).passengers.onElevator.map getPassengerWeight).sum ∧
    ((afterTicks 4 twoRequested).passengers.onElevator = [] →
      (afterTicks 4 twoRequested).elevator.passengers = 0 ∧
        (afterTicks 4 twoRequested).elevator.weight = 0) :=
  load_accounting_invariant (afterTicks 4 twoRequested)
    (reachable_afterTicks 4 twoRequested reachable_twoRequested)

theorem valid_unit_weight_pos (p : Passenger) (h : 1 ≤ p.type ∧ p.type ≤ 4) :
    1 ≤ getPassengerUnit p ∧ 1 ≤ getPassengerWeight p := by
  unfold getPassengerUnit getPassengerWeight ADULT CHILD ROOM_SERVICE BELLHOP ADULT_WEIGHT
    CHILD_WEIGHT ROOM_SERVICE_WEIGHT BELLHOP_WEIGHT
  constructor <;> split_ifs <;> omega

theorem full_boards_nobody (s : State)
    (hv : ∀ p ∈ s.passengers.waiting, 1 ≤ p.type ∧ p.type ≤ 4)
    (hfull : s.elevator.passengers = MAX_PASSENGERS ∨ s.elevator.weight = MAX_WEIGHT) :
    boarded s = [] ∧ leftWaiting s = s.passengers.waiting := by
  unfold boarded leftWaiting
  apply boarding_nil_of_not_fits
  intro q hq _
  have hpos := valid_unit_weight_pos q (hv q hq)
  unfold fits
  rcases hfull with h | h <;> rw [h] <;> omega

theorem full_load_noop (s : State)
    (hv : ∀ p ∈ s.passengers.waiting, 1 ≤ p.type ∧ p.type ≤ 4)
    (hfull : s.elevator.passengers = MAX_PASSENGERS ∨ s.elevator.weight = MAX_WEIGHT) :
    loadPassengers s = some (s, 0) := by
  have hb := full_boards_nobody s hv hfull
  unfold boarded leftWaiting at hb
  rw [loadPassengers_eq s (fun hne => absurd hb.1 hne), hb.1, hb.2, loadedState_nil]
  rfl

theorem inv_unloaded_closed (s : State) (h : Inv s) : Inv (unloaded s) :=
  inv_unloaded s h

theorem inv_loaded_closed (s : State) (h : Inv s) : Inv (loaded s) :=
  inv_loaded s h

theorem unloadPassengers_inv (s : State) (h : Inv s) :
    unloadPassengers s =
      some (unloaded s,
        if leaving s.elevator.current_floor s.passengers.onElevator = [] then 0 else 1) :=
  unloadPassengers_eq s (fun p hp _ => (h.aboard_valid p hp).2.1)

theorem loadPassengers_inv (s : State) (h : Inv s) :
    loadPassengers s = some (loaded s, if boarded s = [] then 0 else 1) :=
  loadPassengers_eq s (fun _ => h.cur_range)

theorem settle_eq (s : State) :
    (if s.passengers.waiting ≠ [] ∨ s.passengers.onElevator ≠ [] then
        some (moveElevator (changeElevatorState s))
      else if s.elevator.deactiving ≠ 0 then
        some { s with elevator := { s.elevator with state := 0, deactiving := 0 } }
      else some s) = some (settle s) := by
  unfold settle
  split_ifs <;> rfl

theorem thread_run_body_ungated_eq (s : State) (h : Inv s) :
    thread_run_body_ungated s = some (tickResult s) := by
  unfold thread_run_body_ungated tickResult
  by_cases hq : s.passengers.waiting ≠ [] ∨ s.passengers.onElevator ≠ []
  · rw [if_pos hq, if_pos hq, unloadPassengers_inv s h]
    simp only
    rw [loadPassengers_inv _ (inv_unloaded_closed s h)]
    exact settle_eq (pauseFor
      (if leaving s.elevator.current_floor s.passengers.onElevator = [] then 0 else 1)
      (if boarded (unloaded s) = [] then 0 else 1) (loaded (unloaded s)))
  · rw [if_neg hq, if_neg hq]
    split_ifs <;> rfl

theorem thread_run_body_eq (s : State) (h : Inv s) :
    thread_run_body s = some (tickResult s) := by
  rw [← thread_run_body_ungated_eq s h]
  unfold thread_run_body_ungated thread_run_body
  by_cases hq : s.passengers.waiting ≠ [] ∨ s.passengers.onElevator ≠ []
  · rw [if_pos hq, if_pos hq, unloadPassengers_inv s h]
    simp only
    by_cases hg : (unloaded s).elevator.passengers ≠ MAX_PASSENGERS ∧
        (unloaded s).elevator.weight ≠ MAX_WEIGHT
    · rw [if_pos hg]
    · rw [if_neg hg]
      have hfull : (unloaded s).elevator.passengers = MAX_PASSENGERS ∨
          (unloaded s).elevator.weight = MAX_WEIGHT := by
        by_cases h1 : (unloaded s).elevator.passengers = MAX_PASSENGERS
        · exact Or.inl h1
        · by_cases h2 : (unloaded s).elevator.weight = MAX_WEIGHT
          · exact Or.inr h2
          · exact absurd ⟨h1, h2⟩ hg
      rw [full_load_noop (unloaded s)
        (fun p hp => ((inv_unloaded_closed s h).waiting_valid p hp).1) hfull]
  · rw [if_neg hq, if_neg hq]

theorem reachable_requestAdults (n : Nat) :
    ∀ s : State, Reachable s → Reachable (requestAdults n s) := by
  induction n with
  | zero => intro s h; exact h
  | succ n ih => intro s h; exact ih _ (reachable_requested s 1 1 2 h)

theorem reachable_elevenAdults : Reachable elevenAdults :=
  reachable_requestAdults 11 justStarted reachable_justStarted

/-- C20 (the full-elevator gate of the tick is redundant): in every
reachable state, where every queued passenger has a type in 1..4, if the
occupancy is `MAX_PASSENGERS` or the weight is `MAX_WEIGHT` then
`loadPassengers` moves nobody, changes nothing and returns 0; and the loop
body that calls `loadPassengers` in every tick gives the same result as the
loop body of `thread_run`, which calls it only when neither limit is
reached. -/
theorem full_elevator_gate_redundant (s : State) (h : Reachable s) :
    (s.elevator.passengers = MAX_PASSENGERS ∨ s.elevator.weight = MAX_WEIGHT →
      loadPassengers s = some (s, 0)) ∧
    thread_run_body_ungated s = thread_run_body s ∧
    ∃ s1 : State, thread_run_body s = some s1 := by
  have hi := reachable_inv s h
  refine ⟨?_, ?_, ⟨_, thread_run_body_eq s hi⟩⟩
  · intro hfull
    exact full_load_noop s (fun p hp => (hi.waiting_valid p hp).1) hfull
  · rw [thread_run_body_ungated_eq s hi, thread_run_body_eq s hi]

/-- Witness of C20: the state one tick after the requests of the eleven
adults, with ten of them aboard and the eleventh waiting at floor 1. -/
theorem full_elevator_gate_redundant_witness :
    ((afterTicks 1 elevenAdults).elevator.passengers = MAX_PASSENGERS ∨
        (afterTicks 1 elevenAdults).elevator.weight = MAX_WEIGHT →
      loadPassengers (afterTicks 1 elevenAdults) = some (afterTicks 1 elevenAdults, 0)) ∧
    thread_run_body_ungated (afterTicks 1 elevenAdults) =
      thread_run_body (afterTicks 1 elevenAdults) ∧
    ∃ s1 : State, thread_run_body (afterTicks 1 elevenAdults) = some s1 :=
  full_elevator_gate_redundant (afterTicks 1 elevenAdults)
    (reachable_afterTicks 1 elevenAdults reachable_elevenAdults)

theorem reachable_step (s s1 : State) (h : Reachable s) (hs : Step s s1) : Reachable s1 := by
  cases hs with
  | start => exact Reachable.start s h
  | request lock allocated _ _ t a b r hr =>
    exact Reachable.request lock allocated s s1 t a b r h hr
  | stop lock => exact Reachable.stop lock s h
  | tick _ _ ht => exact Reachable.tick s s1 h ht

theorem originCount_nonneg (ps : List Passenger) (i : Fin FLOORS) : 0 ≤ originCount ps i := by
  unfold originCount
  exact Int.ofNat_nonneg _

theorem settle_serviced (s : State) :
    (settle s).passengers.serviced = s.passengers.serviced ∧
      (settle s).serviced_on_floor = s.serviced_on_floor := by
  unfold settle
  split_ifs
  · by_cases hd : s.elevator.next_floor > s.elevator.current_floor
    · rw [move_up s hd]; exact ⟨rfl, rfl⟩
    · rw [move_down s hd]; exact ⟨rfl, rfl⟩
  · exact ⟨rfl, rfl⟩
  · exact ⟨rfl, rfl⟩

theorem pauseFor_serviced (u l : Int) (s : State) :
    (pauseFor u l s).passengers.serviced = s.passengers.serviced ∧
      (pauseFor u l s).serviced_on_floor = s.serviced_on_floor := by
  unfold pauseFor
  split_ifs <;> exact ⟨rfl, rfl⟩

theorem tickResult_serviced (s : State) :
    s.passengers.serviced ≤ (tickResult s).passengers.serviced ∧
      ∀ i : Fin FLOORS, s.serviced_on_floor i ≤ (tickResult s).serviced_on_floor i := by
  unfold tickResult
  by_cases hq : s.passengers.waiting ≠ [] ∨ s.passengers.onElevator ≠ []
  · rw [if_pos hq, (settle_serviced _).1, (settle_serviced _).2, (pauseFor_serviced _ _ _).1,
      (pauseFor_serviced _ _ _).2]
    constructor
    · show s.passengers.serviced ≤ s.passengers.serviced + _
      have : (0 : Int) ≤
          ((leaving s.elevator.current_floor s.passengers.onElevator).length : Int) :=
        Int.ofNat_nonneg _
      omega
    · intro i
      show s.serviced_on_floor i ≤ s.serviced_on_floor i + originCount _ i
      have := originCount_nonneg (leaving s.elevator.current_floor s.passengers.onElevator) i
      omega
  · rw [if_neg hq]
    split_ifs <;> exact ⟨le_refl _, fun _ => le_refl _⟩

theorem step_serviced (s s1 : State) (h : Inv s) (hs : Step s s1) :
    s.passengers.serviced ≤ s1.passengers.serviced ∧
      ∀ i : Fin FLOORS, s.serviced_on_floor i ≤ s1.serviced_on_floor i := by
  cases hs with
  | start =>
    unfold start_elevator
    split_ifs <;> exact ⟨le_refl _, fun _ => le_refl _⟩
  | request lock allocated _ _ t a b r hr =>
    unfold issue_request at hr
    split_ifs at hr <;> cases hr <;> exact ⟨le_refl _, fun _ => le_refl _⟩
  | stop lock =>
    unfold stop_elevator
    split_ifs <;> exact ⟨le_refl _, fun _ => le_refl _⟩
  | tick _ _ ht =>
    rw [thread_run_body_eq s h] at ht
    cases ht
    exact tickResult_serviced s

/-- C19 (serviced accounting invariant): in every state reachable from
`setup_elevator` by the three system calls and scheduler ticks, `serviced`
is the sum of `serviced_on_floor[i]` over all floors, and in every state
reached from there by further calls and ticks neither `serviced` nor any
`serviced_on_floor[i]`, and so neither their sum, is smaller. -/
theorem serviced_accounting_invariant (s : State) (h : Reachable s) :
    s.passengers.serviced = ∑ i : Fin FLOORS, s.serviced_on_floor i ∧
    ∀ s1 : State, Relation.ReflTransGen Step s s1 →
      s.passengers.serviced ≤ s1.passengers.serviced ∧
      (∀ i : Fin FLOORS, s.serviced_on_floor i ≤ s1.serviced_on_floor i) ∧
      ∑ i : Fin FLOORS, s.serviced_on_floor i ≤ ∑ i : Fin FLOORS, s1.serviced_on_floor i := by
  refine ⟨(reachable_inv s h).serviced_eq, ?_⟩
  intro s1 hs
  have key : Reachable s1 ∧ s.passengers.serviced ≤ s1.passengers.serviced ∧
      ∀ i : Fin FLOORS, s.serviced_on_floor i ≤ s1.serviced_on_floor i := by
    induction hs with
    | refl => exact ⟨h, le_refl _, fun _ => le_refl _⟩
    | tail _ hstep ih =>
      obtain ⟨hr, h1, h2⟩ := ih
      have hm := step_serviced _ _ (reachable_inv _ hr) hstep
      exact ⟨reachable_step _ _ hr hstep, le_trans h1 hm.1, fun i => le_trans (h2 i) (hm.2 i)⟩
  exact ⟨key.2.1, key.2.2, Finset.sum_le_sum (fun i _ => key.2.2 i)⟩

/-- Witness of C19: the state five ticks after the request of the adult, when
the adult has been delivered. -/
theorem serviced_accounting_invariant_witness :
    (afterTicks 5 adultRequested).passengers.serviced =
      ∑ i : Fin FLOORS, (afterTicks 5 adultRequested).serviced_on_floor i ∧
    ∀ s1 : State, Relation.ReflTransGen Step (afterTicks 5 adultRequested) s1 →
      (afterTicks 5 adultRequested).passengers.serviced ≤ s1.passengers.serviced ∧
      (∀ i : Fin FLOORS,
        (afterTicks 5 adultRequested).serviced_on_floor i ≤ s1.serviced_on_floor i) ∧
      ∑ i : Fin FLOORS, (afterTicks 5 adultRequested).serviced_on_floor i ≤
        ∑ i : Fin FLOORS, s1.serviced_on_floor i :=
  serviced_accounting_invariant (afterTicks 5 adultRequested)
    (reachable_afterTicks 5 adultRequested reachable_adultRequested)

theorem mem_floorList (x : Int) (h : 1 ≤ x ∧ x ≤ (FLOORS : Int)) : x ∈ floorList := by
  have h2 := h.2
  simp only [FLOORS, Nat.cast_ofNat] at h2
  have : x = 1 ∨ x = 2 ∨ x = 3 ∨ x = 4 ∨ x = 5 ∨ x = 6 ∨ x = 7 ∨ x = 8 ∨ x = 9 ∨
      x = 10 := by
    omega
  simp only [floorList, List.mem_cons, List.mem_singleton, List.not_mem_nil, or_false]
  exact this

set_option maxRecDepth 100000 in
theorem floors_covered_list :
    ∀ c ∈ floorList, ∀ n ∈ floorList, (n = c + 1 ∨ n = c - 1) →
      ∀ d ∈ floorList, ∃ j, j < 18 ∧ floorAfter j c n = d := by
  decide

theorem floors_covered (c n d : Int) (hc : 1 ≤ c ∧ c ≤ (FLOORS : Int))
    (hn : 1 ≤ n ∧ n ≤ (FLOORS : Int)) (ha : n = c + 1 ∨ n = c - 1)
    (hd : 1 ≤ d ∧ d ≤ (FLOORS : Int)) : ∃ j, j < 18 ∧ floorAfter j c n = d :=
  floors_covered_list c (mem_floorList c hc) n (mem_floorList n hn) ha d (mem_floorList d hd)

theorem moved_fields (s : State) :
    ((moveElevator (changeElevatorState s)).elevator.current_floor,
        (moveElevator (changeElevatorState s)).elevator.next_floor) =
      moveFloors s.elevator.current_floor s.elevator.next_floor ∧
    (moveElevator (changeElevatorState s)).elevator.deactiving = s.elevator.deactiving ∧
    (moveElevator (changeElevatorState s)).elevator.started = s.elevator.started := by
  by_cases hd : s.elevator.next_floor > s.elevator.current_floor
  · rw [move_up s hd]
    simp only [moveFloors, hd, if_true]
    exact ⟨trivial, trivial, trivial⟩
  · rw [move_down s hd]
    simp only [moveFloors, hd, if_false]
    exact ⟨trivial, trivial, trivial⟩

theorem inv_tickResult (s : State) (h : Inv s) : Inv (tickResult s) := by
  obtain ⟨s1, h1, hi⟩ := inv_tick s h
  rw [thread_run_body_eq s h] at h1
  cases h1
  exact hi

theorem ticks_succ (n : Nat) (s : State) (h : Inv s) :
    ticks (n + 1) s = ticks n (tickResult s) := by
  simp only [ticks, thread_run_body_eq s h]

theorem pauseFor_fields (u l : Int) (s : State) :
    (pauseFor u l s).passengers = s.passengers ∧
    (pauseFor u l s).elevator.current_floor = s.elevator.current_floor ∧
    (pauseFor u l s).elevator.next_floor = s.elevator.next_floor ∧
    (pauseFor u l s).elevator.deactiving = s.elevator.deactiving ∧
    (pauseFor u l s).elevator.started = s.elevator.started := by
  unfold pauseFor
  split_ifs <;> exact ⟨rfl, rfl, rfl, rfl, rfl⟩

theorem loaded_of_nobody_waiting (s : State) (h : s.passengers.waiting = []) :
    loaded s = s ∧ boarded s = [] := by
  have hb : boarded s = [] := by simp [boarded, h, boarding]
  have hl : leftWaiting s = s.passengers.waiting := by simp [leftWaiting, h, remaining]
  unfold loaded
  rw [hb, hl, loadedState_nil]
  exact ⟨rfl, rfl⟩

theorem tickResult_of_empty (s : State) (hw : s.passengers.waiting = [])
    (ha : s.passengers.onElevator = []) (hs : s.elevator.started = 0) :
    tickResult s = { s with elevator := { s.elevator with state := 0 } } := by
  simp [tickResult, hw, ha, hs]

theorem drained_of_empty (s : State) (hw : s.passengers.waiting = [])
    (ha : s.passengers.onElevator = []) (hs : s.elevator.started = 0) :
    Drained (tickResult s) := by
  rw [tickResult_of_empty s hw ha hs]
  exact ⟨hw, ha, rfl, hs⟩

theorem tickResult_drained (s : State) (h : Drained s) : tickResult s = s := by
  rw [tickResult_of_empty s h.1 h.2.1 h.2.2.2]
  cases s with
  | mk e p sf wf =>
    cases e
    simp only [Drained] at h
    simp [h.2.2.1]

theorem ticks_drained (n : Nat) (s : State) (hi : Inv s) (h : Drained s) :
    ticks n s = some s := by
  induction n with
  | zero => rfl
  | succ n ih => rw [ticks_succ n s hi, tickResult_drained s h, ih]

theorem tickResult_last_leave (s : State) (hw : s.passengers.waiting = [])
    (ha : s.passengers.onElevator ≠ [])
    (hst : staying s.elevator.current_floor s.passengers.onElevator = [])
    (hd : s.elevator.deactiving ≠ 0) (hs : s.elevator.started = 0) :
    Drained (tickResult s) := by
  have hl := loaded_of_nobody_waiting (unloaded s) hw
  have hq : s.passengers.waiting ≠ [] ∨ s.passengers.onElevator ≠ [] := Or.inr ha
  unfold tickResult
  rw [if_pos hq, hl.1, hl.2]
  have hp := pauseFor_fields
    (if leaving s.elevator.current_floor s.passengers.onElevator = [] then 0 else 1)
    (if ([] : List Passenger) = [] then 0 else 1) (unloaded s)
  have hpw : (pauseFor
      (if leaving s.elevator.current_floor s.passengers.onElevator = [] then 0 else 1)
      (if ([] : List Passenger) = [] then 0 else 1) (unloaded s)).passengers.waiting = [] := by
    rw [hp.1]; exact hw
  have hpa : (pauseFor
      (if leaving s.elevator.current_floor s.passengers.onElevator = [] then 0 else 1)
      (if ([] : List Passenger) = [] then 0 else 1) (unloaded s)).passengers.onElevator = [] := by
    rw [hp.1]; exact hst
  have hpd : (pauseFor
      (if leaving s.elevator.current_floor s.passengers.onElevator = [] then 0 else 1)
      (if ([] : List Passenger) = [] then 0 else 1) (unloaded s)).elevator.deactiving ≠ 0 := by
    rw [hp.2.2.2.1]; exact hd
  unfold settle
  rw [if_neg (by rw [hpw, hpa]; simp), if_pos hpd]
  exact ⟨hpw, hpa, rfl,
    hp.2.2.2.2.trans (show (unloaded s).elevator.started = 0 from hs)⟩

theorem tickResult_go_on (s : State) (hw : s.passengers.waiting = [])
    (hst : staying s.elevator.current_floor s.passengers.onElevator ≠ []) :
    (tickResult s).passengers.waiting = [] ∧
    (tickResult s).passengers.onElevator =
      staying s.elevator.current_floor s.passengers.onElevator ∧
    ((tickResult s).elevator.current_floor, (tickResult s).elevator.next_floor) =
      moveFloors s.elevator.current_floor s.elevator.next_floor ∧
    (tickResult s).elevator.deactiving = s.elevator.deactiving ∧
    (tickResult s).elevator.started = s.elevator.started := by
  have hl := loaded_of_nobody_waiting (unloaded s) hw
  have ha : s.passengers.onElevator ≠ [] := by
    intro h; apply hst; rw [h]; rfl
  have hq : s.passengers.waiting ≠ [] ∨ s.passengers.onElevator ≠ [] := Or.inr ha
  unfold tickResult
  rw [if_pos hq, hl.1, hl.2]
  have hp := pauseFor_fields
    (if leaving s.elevator.current_floor s.passengers.onElevator = [] then 0 else 1)
    (if ([] : List Passenger) = [] then 0 else 1) (unloaded s)
  have hpa : (pauseFor
      (if leaving s.elevator.current_floor s.passengers.onElevator = [] then 0 else 1)
      (if ([] : List Passenger) = [] then 0 else 1) (unloaded s)).passengers.onElevator ≠ [] := by
    rw [hp.1]; exact hst
  unfold settle
  rw [if_pos (Or.inr hpa)]
  have hm := moved_fields (pauseFor
      (if leaving s.elevator.current_floor s.passengers.onElevator = [] then 0 else 1)
      (if ([] : List Passenger) = [] then 0 else 1) (unloaded s))
  have hms := moved_state (pauseFor
      (if leaving s.elevator.current_floor s.passengers.onElevator = [] then 0 else 1)
      (if ([] : List Passenger) = [] then 0 else 1) (unloaded s))
  refine ⟨?_, ?_, ?_, ?_, ?_⟩
  · rw [hms.2, hp.1]; exact hw
  · rw [hms.2, hp.1]; rfl
  · rw [hm.1, hp.2.1, hp.2.2.1]; rfl
  · rw [hm.2.1, hp.2.2.2.1]; rfl
  · rw [hm.2.2, hp.2.2.2.2]; rfl

theorem settle_passengers (s : State) : (settle s).passengers = s.passengers := by
  unfold settle
  split_ifs
  · exact (moved_state s).2
  · rfl
  · rfl

theorem tickResult_aboard (s : State) :
    ∃ l : List Passenger, (tickResult s).passengers.onElevator =
      staying s.elevator.current_floor s.passengers.onElevator ++ l := by
  unfold tickResult
  by_cases hq : s.passengers.waiting ≠ [] ∨ s.passengers.onElevator ≠ []
  · rw [if_pos hq, settle_passengers, (pauseFor_fields _ _ _).1]
    exact ⟨boarded (unloaded s), rfl⟩
  · rw [if_neg hq]
    simp only [ne_eq, not_or, not_not] at hq
    refine ⟨[], ?_⟩
    split_ifs <;> simp [hq.2, staying]

theorem drain_within (k : Nat) :
    ∀ s : State, Inv s → s.passengers.waiting = [] → s.elevator.started = 0 →
      (s.passengers.onElevator ≠ [] → s.elevator.deactiving ≠ 0) →
      (∀ p ∈ s.passengers.onElevator,
        ∃ j, j < k ∧ floorAfter j s.elevator.current_floor s.elevator.next_floor
          = p.destination) →
      ∀ n, k ≤ n → 1 ≤ n →
        ∃ s1 : State, ticks n s = some s1 ∧ Inv s1 ∧ Drained s1 := by
  induction k with
  | zero =>
    intro s hi hw hs _ hb n _ hn
    have ha : s.passengers.onElevator = [] := by
      cases hl : s.passengers.onElevator with
      | nil => rfl
      | cons p ps =>
        obtain ⟨j, hj, _⟩ := hb p (by rw [hl]; exact List.mem_cons_self _ _)
        omega
    obtain ⟨m, rfl⟩ : ∃ m, n = m + 1 := ⟨n - 1, by omega⟩
    rw [ticks_succ m s hi]
    exact ⟨tickResult s,
      ticks_drained m _ (inv_tickResult s hi) (drained_of_empty s hw ha hs),
      inv_tickResult s hi, drained_of_empty s hw ha hs⟩
  | succ k ih =>
    intro s hi hw hs hd hb n hkn _
    obtain ⟨m, rfl⟩ : ∃ m, n = m + 1 := ⟨n - 1, by omega⟩
    have hkm : k ≤ m := by omega
    rw [ticks_succ m s hi]
    by_cases ha : s.passengers.onElevator = []
    · exact ⟨tickResult s,
        ticks_drained m _ (inv_tickResult s hi) (drained_of_empty s hw ha hs),
        inv_tickResult s hi, drained_of_empty s hw ha hs⟩
    · by_cases hst : staying s.elevator.current_floor s.passengers.onElevator = []
      · have hdr := tickResult_last_leave s hw ha hst (hd ha) hs
        exact ⟨tickResult s, ticks_drained m _ (inv_tickResult s hi) hdr,
          inv_tickResult s hi, hdr⟩
      · obtain ⟨h1, h2, h3, h4, h5⟩ := tickResult_go_on s hw hst
        have hcur : (tickResult s).elevator.current_floor =
            (moveFloors s.elevator.current_floor s.elevator.next_floor).1 :=
          congrArg Prod.fst h3
        have hnext : (tickResult s).elevator.next_floor =
            (moveFloors s.elevator.current_floor s.elevator.next_floor).2 :=
          congrArg Prod.snd h3
        have hb1 : ∀ p ∈ (tickResult s).passengers.onElevator,
            ∃ j, j < k ∧ floorAfter j (tickResult s).elevator.current_floor
              (tickResult s).elevator.next_floor = p.destination := by
          intro p hp
          rw [h2] at hp
          unfold staying at hp
          have hpm := List.mem_of_mem_filter hp
          have hpd : ¬ p.destination = s.elevator.current_floor := by
            simpa using List.of_mem_filter hp
          obtain ⟨j, hj, hf⟩ := hb p hpm
          cases j with
          | zero => exact absurd hf.symm hpd
          | succ j =>
            refine ⟨j, by omega, ?_⟩
            rw [hcur, hnext]
            exact hf
        have hne : (tickResult s).passengers.onElevator ≠ [] := by rw [h2]; exact hst
        have hm1 : 1 ≤ m := by
          rcases Nat.eq_zero_or_pos m with h0 | h0
          · exfalso
            have hk0 : k = 0 := by omega
            cases hl : (tickResult s).passengers.onElevator with
            | nil => exact hne hl
            | cons p ps =>
              obtain ⟨j, hj, _⟩ := hb1 p (by rw [hl]; exact List.mem_cons_self _ _)
              omega
          · exact h0
        exact ih (tickResult s) (inv_tickResult s hi) h1 (by rw [h5]; exact hs)
          (fun _ => by rw [h4]; exact hd ha) hb1 m hkm hm1

set_option maxRecDepth 100000 in
theorem delivered_list :
    ∀ t ∈ [(1 : Int), 2, 3, 4], ∀ o ∈ floorList, ∀ d ∈ floorList,
      ((issue_request 0 true (start_elevator setup_elevator).1 t o d).bind
        fun r => (ticks 40 r.1).map deliveryView) = some (1, [], [], 0, 0, d) := by
  decide!

set_option maxRecDepth 100000 in
theorem accepted_list :
    ∀ t ∈ [(1 : Int), 2, 3, 4], ∀ o ∈ floorList, ∀ d ∈ floorList,
      (issue_request 0 true (start_elevator setup_elevator).1 t o d).map Prod.snd =
        some 0 := by
  decide!

theorem delivered_view (q : Option (State × Int)) (n : Nat) (d : Int)
    (h : q.map Prod.snd = some 0 ∧
      (q.bind fun r => (ticks n r.1).map deliveryView) = some (1, [], [], 0, 0, d)) :
    ∃ s0 s : State, q = some (s0, 0) ∧ ticks n s0 = some s ∧
      s.passengers.serviced = 1 ∧ s.passengers.waiting = [] ∧ s.passengers.onElevator = [] ∧
      s.elevator.passengers = 0 ∧ s.elevator.weight = 0 ∧ s.elevator.current_floor = d := by
  cases q with
  | none => simp at h
  | some r =>
    obtain ⟨s0, v⟩ := r
    obtain ⟨hv, h⟩ := h
    simp only [Option.map_some', Option.some.injEq] at hv
    subst hv
    simp only [Option.some_bind] at h
    cases hk : ticks n s0 with
    | none => rw [hk] at h; simp at h
    | some s =>
      rw [hk] at h
      simp only [Option.map_some', Option.some.injEq, deliveryView, Prod.mk.injEq] at h
      exact ⟨s0, s, rfl, hk, h⟩

/-- C14 (a single request is delivered): for every passenger type in 1..4
and every origin and destination in 1..`FLOORS`, from the initial state,
after `start_elevator`, `issue_request` (which acquires the lock, both
queues being empty so that nothing else holds it, and is given its record)
and then 40 scheduler ticks, `serviced` is 1, both queues are empty,
occupancy and weight are 0 and the elevator is at the destination; for the
adult going from floor 1 to floor 5 this holds already after 5 ticks. -/
theorem single_request_delivered (passenger_type start_floor destination_floor : Int)
    (htype : 1 ≤ passenger_type ∧ passenger_type ≤ 4)
    (hstart : 1 ≤ start_floor ∧ start_floor ≤ (FLOORS : Int))
    (hdest : 1 ≤ destination_floor ∧ destination_floor ≤ (FLOORS : Int)) :
    (∃ s0 s : State,
      issue_request 0 true (start_elevator setup_elevator).1
        passenger_type start_floor destination_floor = some (s0, 0) ∧
      ticks 40 s0 = some s ∧
      s.passengers.serviced = 1 ∧ s.passengers.waiting = [] ∧ s.passengers.onElevator = [] ∧
      s.elevator.passengers = 0 ∧ s.elevator.weight = 0 ∧
      s.elevator.current_floor = destination_floor) ∧
    (∃ s0 s : State,
      issue_request 0 true (start_elevator setup_elevator).1 1 1 5 = some (s0, 0) ∧
      ticks 5 s0 = some s ∧
      s.passengers.serviced = 1 ∧ s.passengers.waiting = [] ∧ s.passengers.onElevator = [] ∧
      s.elevator.passengers = 0 ∧ s.elevator.weight = 0 ∧ s.elevator.current_floor = 5) := by
  have ht : passenger_type ∈ [(1 : Int), 2, 3, 4] := by
    have : passenger_type = 1 ∨ passenger_type = 2 ∨ passenger_type = 3 ∨
        passenger_type = 4 := by omega
    simp only [List.mem_cons, List.mem_singleton, List.not_mem_nil, or_false]
    exact this
  constructor
  · exact delivered_view _ 40 _
      ⟨accepted_list passenger_type ht start_floor (mem_floorList _ hstart)
        destination_floor (mem_floorList _ hdest),
      delivered_list passenger_type ht start_floor (mem_floorList _ hstart)
        destination_floor (mem_floorList _ hdest)⟩
  · exact delivered_view _ 5 5 ⟨by decide, by decide⟩

/-- Witness of C14: a bellhop going from floor 2 to floor 1. -/
theorem single_request_delivered_witness :
    (∃ s0 s : State,
      issue_request 0 true (start_elevator setup_elevator).1 4 2 1 = some (s0, 0) ∧
      ticks 40 s0 = some s ∧
      s.passengers.serviced = 1 ∧ s.passengers.waiting = [] ∧ s.passengers.onElevator = [] ∧
      s.elevator.passengers = 0 ∧ s.elevator.weight = 0 ∧ s.elevator.current_floor = 1) ∧
    (∃ s0 s : State,
      issue_request 0 true (start_elevator setup_elevator).1 1 1 5 = some (s0, 0) ∧
      ticks 5 s0 = some s ∧
      s.passengers.serviced = 1 ∧ s.passengers.waiting = [] ∧ s.passengers.onElevator = [] ∧
      s.elevator.passengers = 0 ∧ s.elevator.weight = 0 ∧ s.elevator.current_floor = 5) :=
  single_request_delivered 4 2 1 (by decide) (by decide) (by decide)

/-- Drain after a stop under the lock: when `stop_elevator` succeeds with the
lock acquired in a reachable state, right after it the waiting queue is
empty and the aboard queue is as before; in every tick from a reachable
state the aboard passengers whose destination is not the current floor stay
aboard, in their order, so that a passenger leaves only in a tick at its
destination; and after 18 or more further ticks with no other call, so
after 20, both queues are empty, occupancy and weight are 0 and the state
is 0 (offline). -/
theorem drain_after_locked_stop (s : State) (h : Reachable s)
    (hstop : (stop_elevator 0 s).2 = 0) :
    (stop_elevator 0 s).1.passengers.waiting = [] ∧
    (stop_elevator 0 s).1.passengers.onElevator = s.passengers.onElevator ∧
    (∀ u u1 : State, Reachable u → thread_run_body u = some u1 →
      ∃ l : List Passenger, u1.passengers.onElevator =
        u.passengers.onElevator.filter (fun p => ¬ p.destination = u.elevator.current_floor)
          ++ l) ∧
    (∀ n, 18 ≤ n → ∃ s1 : State, ticks n (stop_elevator 0 s).1 = some s1 ∧
      s1.passengers.waiting = [] ∧ s1.passengers.onElevator = [] ∧
      s1.elevator.passengers = 0 ∧ s1.elevator.weight = 0 ∧ s1.elevator.state = 0) := by
  have hi := reachable_inv s h
  have hflags : s.elevator.started ≠ 0 ∧ s.elevator.deactiving = 0 := by
    by_cases h1 : s.elevator.started = 0
    · simp [stop_elevator, h1] at hstop
    · by_cases h2 : s.elevator.deactiving ≠ 0
      · simp [stop_elevator, h1, h2] at hstop
      · exact ⟨h1, by simpa using h2⟩
  have hi0 := inv_stop 0 s hi
  have hst : stop_elevator 0 s =
      ({ s with
          elevator := { s.elevator with deactiving := 1, started := 0 }
          passengers := { s.passengers with waiting := [] }
          waiting_on_floor := fun _ => 0 }, 0) := by
    simp only [stop_elevator, hflags.1, hflags.2, if_false, if_true, ne_eq,
      not_true_eq_false]
  refine ⟨by rw [hst], by rw [hst], ?_, ?_⟩
  · intro u u1 hu ht
    rw [thread_run_body_eq u (reachable_inv u hu)] at ht
    cases ht
    exact tickResult_aboard u
  · intro n hn
    have hb : ∀ p ∈ (stop_elevator 0 s).1.passengers.onElevator,
        ∃ j, j < 18 ∧ floorAfter j (stop_elevator 0 s).1.elevator.current_floor
          (stop_elevator 0 s).1.elevator.next_floor = p.destination := by
      intro p hp
      exact floors_covered _ _ _ hi0.cur_range hi0.next_range hi0.next_adjacent
        (hi0.aboard_valid p hp).2.2
    obtain ⟨s1, h1, hi1, hd1⟩ := drain_within 18 (stop_elevator 0 s).1 hi0 (by rw [hst])
      (by rw [hst]) (fun _ => by rw [hst]; exact one_ne_zero) hb n hn (by omega)
    refine ⟨s1, h1, hd1.1, hd1.2.1, ?_, ?_, hd1.2.2.1⟩
    · rw [hi1.occupancy_eq, hd1.2.1]; rfl
    · rw [hi1.weight_eq, hd1.2.1]; rfl

theorem reachable_lateRequest : Reachable lateRequest :=
  reachable_requested _ 1 1 1
    (reachable_afterTicks 1 _ (reachable_requested _ 1 5 5 reachable_justStarted))

theorem reachable_of_locked (s : State) (h : ReachableLocked s) : Reachable s := by
  induction h with
  | setup => exact Reachable.setup
  | start s _ ih => exact Reachable.start s ih
  | request lock allocated s s1 t a b r _ hr ih =>
    exact Reachable.request lock allocated s s1 t a b r ih hr
  | stop s _ ih => exact Reachable.stop 0 s ih
  | tick s s1 _ ht ih => exact Reachable.tick s s1 ih ht

theorem tally_setup : Tally setup_elevator := fun _ => rfl

theorem tally_start (s : State) (h : Tally s) : Tally (start_elevator s).1 := by
  unfold start_elevator
  split_ifs
  · exact h
  · exact h

theorem tally_stop (s : State) (h : Tally s) : Tally (stop_elevator 0 s).1 := by
  unfold stop_elevator
  by_cases h1 : s.elevator.started = 0
  · rw [if_pos h1]; exact h
  · rw [if_neg h1]
    by_cases h2 : s.elevator.deactiving ≠ 0
    · rw [if_pos h2]; exact h
    · rw [if_neg h2]
      intro i
      rfl

theorem tally_request (lock : Int) (allocated : Bool) (s s1 : State)
    (passenger_type start_floor destination_floor result : Int) (h : Tally s)
    (hr : issue_request lock allocated s passenger_type start_floor destination_floor =
      some (s1, result)) : Tally s1 := by
  unfold issue_request at hr
  split_ifs at hr with h1 h2 h3 h4 h5 h6 h7
  · cases hr; exact h
  · cases hr; exact h
  · cases hr; exact h
  · cases hr; exact h
  · cases hr
    intro i
    simp only [originCount_append, originCount_cons, originCount_nil]
    rw [Function.update_apply]
    simp only [h _]
    have hiff : (i = ⟨(start_floor - 1).toNat, by
          simp only [FLOORS, not_or, not_lt, not_le, gt_iff_lt] at h3 ⊢; omega⟩) ↔
        start_floor - 1 = ((i : Nat) : Int) := by
      rw [Fin.ext_iff]; simp only; omega
    by_cases hi : start_floor - 1 = ((i : Nat) : Int)
    · rw [if_pos (hiff.2 hi), if_pos hi, ← hiff.2 hi]
      omega
    · rw [if_neg (fun hh => hi (hiff.1 hh)), if_neg hi]
      omega
  · cases hr; exact h
  · cases hr; exact h

theorem tally_loaded (s : State) (h : Tally s) : Tally (loaded s) := by
  intro i
  simp only [loaded, loadedState, leftWaiting, boarded]
  rw [originCount_boarding_remaining, h i]
  split_ifs <;> omega

theorem settle_waiting (s : State) :
    (settle s).passengers = s.passengers ∧ (settle s).waiting_on_floor = s.waiting_on_floor := by
  refine ⟨settle_passengers s, ?_⟩
  unfold settle
  split_ifs
  · by_cases hd : s.elevator.next_floor > s.elevator.current_floor
    · rw [move_up s hd]
    · rw [move_down s hd]
  · rfl
  · rfl

theorem pauseFor_waiting (u l : Int) (s : State) :
    (pauseFor u l s).waiting_on_floor = s.waiting_on_floor := by
  unfold pauseFor
  split_ifs <;> rfl

theorem tally_tickResult (s : State) (h : Tally s) : Tally (tickResult s) := by
  unfold tickResult
  by_cases hq : s.passengers.waiting ≠ [] ∨ s.passengers.onElevator ≠ []
  · rw [if_pos hq]
    intro i
    rw [(settle_waiting _).1, (settle_waiting _).2, (pauseFor_fields _ _ _).1,
      pauseFor_waiting]
    exact tally_loaded (unloaded s) h i
  · rw [if_neg hq]
    split_ifs <;> exact h

theorem tally_of_lock_acquired (s : State) (h : ReachableLocked s) : Tally s := by
  induction h with
  | setup => exact tally_setup
  | start s _ ih => exact tally_start s ih
  | request lock allocated s s1 t a b r _ hr ih =>
    exact tally_request lock allocated s s1 t a b r ih hr
  | stop s _ ih => exact tally_stop s ih
  | tick s s1 hs ht ih =>
    rw [thread_run_body_eq s (reachable_inv s (reachable_of_locked s hs))] at ht
    cases ht
    exact tally_tickResult s ih

/-- C13 at the failing input: after `start_elevator` and the request of an
adult at floor 1, a `stop_elevator` whose wait for the lock is interrupted
(`mutex_lock_interruptible` returns -4) returns 0 and zeroes
`waiting_on_floor[0]` although the adult is still in the waiting queue; the
next tick boards the adult and takes the counter to -1. In the states
reached with every `stop_elevator` acquiring the lock each counter is the
number of waiting passengers of its floor. -/
theorem waiting_tally_broken_by_interrupted_stop :
    Reachable (stop_elevator (-4) adultRequested).1 ∧
    (stop_elevator (-4) adultRequested).2 = 0 ∧
    (stop_elevator (-4) adultRequested).1.passengers.waiting = [⟨1, 1, 5⟩] ∧
    (stop_elevator (-4) adultRequested).1.waiting_on_floor 0 = 0 ∧
    (((stop_elevator (-4) adultRequested).1.passengers.waiting.filter
      (fun p => p.start = (((0 : Fin FLOORS) : Nat) : Int) + 1)).length : Int) = 1 ∧
    (ticks 1 (stop_elevator (-4) adultRequested).1).map
        (fun s => (s.passengers.waiting, s.waiting_on_floor 0)) = some ([], -1) ∧
    (∀ s : State, ReachableLocked s → ∀ i : Fin FLOORS, s.waiting_on_floor i =
      ((s.passengers.waiting.filter (fun p => p.start = ((i : Nat) : Int) + 1)).length :
        Int)) := by
  refine ⟨Reachable.stop (-4) _ reachable_adultRequested, by decide, by decide, by decide,
    by decide, by decide, ?_⟩
  intro s hs i
  rw [tally_of_lock_acquired s hs i, originCount_eq_filter]

/-- C15 at the failing input: with two adults waiting (one at floor 5, one
at floor 1) and the elevator at floor 2 going up, a `stop_elevator` whose
wait for the lock is interrupted (`mutex_lock_interruptible` returns -4)
succeeds (returns 0) in a reachable state, both adults are still in the
waiting queue right after it, and 20 ticks later the adult of floor 1 is
aboard and the elevator is moving up; the elevator is offline and empty
only after 36 ticks. When the lock is acquired the claim holds: in every
reachable state a `stop_elevator` that succeeds leaves the waiting queue
empty and the aboard queue as before, a tick keeps aboard every passenger
whose destination is not the current floor, and after 18 or more further
ticks both queues are empty, occupancy and weight are 0 and the state is 0. -/
theorem drain_broken_by_interrupted_stop :
    Reachable lateRequest ∧
    (stop_elevator (-4) lateRequest).2 = 0 ∧
    (stop_elevator (-4) lateRequest).1.passengers.waiting = [⟨1, 5, 5⟩, ⟨1, 1, 1⟩] ∧
    ¬ (stop_elevator (-4) lateRequest).1.passengers.waiting = [] ∧
    (ticks 20 (stop_elevator (-4) lateRequest).1).map
        (fun s => (s.passengers.waiting, s.passengers.onElevator, s.elevator.passengers,
          s.elevator.state)) = some ([], [⟨1, 1, 1⟩], 1, 3) ∧
    (ticks 36 (stop_elevator (-4) lateRequest).1).map
        (fun s => (s.passengers.waiting, s.passengers.onElevator, s.elevator.passengers,
          s.elevator.state)) = some ([], [], 0, 0) ∧
    (∀ s : State, Reachable s → (stop_elevator 0 s).2 = 0 →
      (stop_elevator 0 s).1.passengers.waiting = [] ∧
      (stop_elevator 0 s).1.passengers.onElevator = s.passengers.onElevator ∧
      (∀ u u1 : State, Reachable u → thread_run_body u = some u1 →
        ∃ l : List Passenger, u1.passengers.onElevator =
          u.passengers.onElevator.filter
            (fun p => ¬ p.destination = u.elevator.current_floor) ++ l) ∧
      (∀ n, 18 ≤ n → ∃ s1 : State, ticks n (stop_elevator 0 s).1 = some s1 ∧
        s1.passengers.waiting = [] ∧ s1.passengers.onElevator = [] ∧
        s1.elevator.passengers = 0 ∧ s1.elevator.weight = 0 ∧ s1.elevator.state = 0)) :=
  ⟨reachable_lateRequest, by decide, by decide, by decide, by decide, by decide,
    drain_after_locked_stop⟩

end KernelElevator
